import Mathlib

/-! # raylib_flecs_joltc: the per-frame orchestration layer of `src/main.c`

A shallow embedding of `src/main.c` and proofs about it.

Conventions of the embedding

* C `float` values are embedded as rationals (`Scalar`): arithmetic is the exact
  arithmetic that the float operations approximate.  The poses and scales used in
  the concrete evaluations below (`0`, `1`, `2`, `-2`, `3`, `20`, `1/2`) are exactly
  representable as floats; `PHYSICS_STEP` is the rational `1/60`.  A division by
  zero has no rational result and is made explicit (`Option`).
* The physics engine (joltc), the renderer (raylib) and the entity store (flecs)
  are external libraries.  The engine is a parameter of the embedding
  (`Joltc σ`, over an arbitrary type `σ` of engine states); raylib draw calls are
  recorded in a trace; the raymath helpers and the flecs scheduler are modelled
  separately and marked as such.
* A pointer that may be null is an `Option`.
-/

namespace RaylibFlecsJoltc

/-! ## Data model (`main.c` lines 23-56, with the raylib value types) -/

/-- The embedding of C `float`. -/
abbrev Scalar := ℚ

/-- The raylib `Vector3`. -/
structure Vector3 where
  x : Scalar
  y : Scalar
  z : Scalar
deriving DecidableEq

/-- The raylib `Quaternion` (`Vector4`): components x, y, z, w. -/
structure Quaternion where
  x : Scalar
  y : Scalar
  z : Scalar
  w : Scalar
deriving DecidableEq

/-- The raylib `Matrix`: sixteen floats, declared in the order
`m0 m4 m8 m12 / m1 m5 m9 m13 / m2 m6 m10 m14 / m3 m7 m11 m15`. -/
structure Matrix where
  m0 : Scalar
  m4 : Scalar
  m8 : Scalar
  m12 : Scalar
  m1 : Scalar
  m5 : Scalar
  m9 : Scalar
  m13 : Scalar
  m2 : Scalar
  m6 : Scalar
  m10 : Scalar
  m14 : Scalar
  m3 : Scalar
  m7 : Scalar
  m11 : Scalar
  m15 : Scalar
deriving DecidableEq

/-- The component `Transform3D` (`main.c` lines 24-30). -/
structure Transform3D where
  position : Vector3
  rotation : Quaternion
  scale : Vector3
  localMatrix : Matrix
  worldMatrix : Matrix
deriving DecidableEq

/-- The joltc body identifier `JPH_BodyID` (an integer id). -/
abbrev JPH_BodyID := Nat

/-- The component `PhysicsBody` (`main.c` lines 40-42). -/
structure PhysicsBody where
  body : JPH_BodyID
deriving DecidableEq

/-- The raylib `Model`; only the field the program writes is kept. -/
structure Model where
  transform : Matrix
deriving DecidableEq

/-- The component `ModelComponent` (`main.c` lines 34-36): a nullable pointer to a model. -/
structure ModelComponent where
  model : Option Model
deriving DecidableEq

/-- A non-null `JPH_BodyInterface*`: an opaque address. -/
structure JPH_BodyInterface where
  addr : Nat
deriving DecidableEq

/-- A non-null `JPH_JobSystem*`: an opaque address. -/
structure JPH_JobSystem where
  addr : Nat
deriving DecidableEq

/-- The struct `JoltcPhysics` (`main.c` lines 46-50).  `physicsSystem` is a nullable
pointer to the engine; the pointee is the engine state, of type `σ`. -/
structure JoltcPhysics (σ : Type) where
  physicsSystem : Option σ
  bodyInterface : Option JPH_BodyInterface
  jobSystem : Option JPH_JobSystem

/-- The raylib `Camera3D`. -/
structure Camera3D where
  position : Vector3
  target : Vector3
  up : Vector3
  fovy : Scalar
  projection : Int
deriving DecidableEq

/-- The struct `WorldContext` (`main.c` lines 53-56): two nullable pointers. -/
structure WorldContext (σ : Type) where
  physics : Option (JoltcPhysics σ)
  camera : Option Camera3D

/-- The joltc calls made by the program.  joltc is an external library, so the
engine is a parameter: any type `σ` of engine states with these operations.
The two getters read the state of the engine that the body interface belongs to,
and leave it as it is.  `JPH_RVec3` is the single precision vector (the program
initialises it with `float` literals), so a position read from the engine is
stored in a `Vector3` as it is. -/
structure Joltc (σ : Type) where
  /-- `JPH_PhysicsSystem_Update(system, deltaTime, collisionSteps, jobSystem)`. -/
  JPH_PhysicsSystem_Update : σ → Scalar → Nat → JPH_JobSystem → σ
  /-- `JPH_BodyInterface_GetCenterOfMassPosition(bodyInterface, body, &position)`. -/
  JPH_BodyInterface_GetCenterOfMassPosition : JPH_BodyInterface → σ → JPH_BodyID → Vector3
  /-- `JPH_BodyInterface_GetRotation(bodyInterface, body, &rotation)`. -/
  JPH_BodyInterface_GetRotation : JPH_BodyInterface → σ → JPH_BodyID → Quaternion
  /-- `JPH_BodyInterface_SetPosition(bodyInterface, body, &position, activation)`. -/
  JPH_BodyInterface_SetPosition : JPH_BodyInterface → σ → JPH_BodyID → Vector3 → σ
  /-- `JPH_BodyInterface_SetRotation(bodyInterface, body, &rotation, activation)`;
  `none` stands for a quaternion whose components are not numbers. -/
  JPH_BodyInterface_SetRotation : JPH_BodyInterface → σ → JPH_BodyID → Option Quaternion → σ
  /-- `JPH_BodyInterface_SetLinearVelocity(bodyInterface, body, &velocity)`. -/
  JPH_BodyInterface_SetLinearVelocity : JPH_BodyInterface → σ → JPH_BodyID → Vector3 → σ

/-- The constant `PHYSICS_STEP` (`main.c` line 65): `1.0f / 60.0f`. -/
def PHYSICS_STEP : Scalar := 1 / 60

/-! ## raymath helpers used by `PhysicsSystem` -/

/-- Modelled from the spec: raymath.h is not under src/.  `MatrixIdentity()`. -/
def MatrixIdentity : Matrix :=
  { m0 := 1, m4 := 0, m8 := 0, m12 := 0,
    m1 := 0, m5 := 1, m9 := 0, m13 := 0,
    m2 := 0, m6 := 0, m10 := 1, m14 := 0,
    m3 := 0, m7 := 0, m11 := 0, m15 := 1 }

/-- Modelled from the spec: raymath.h is not under src/.  `MatrixScale(x, y, z)`,
the scale matrix of section 3. -/
def MatrixScale (x y z : Scalar) : Matrix :=
  { m0 := x, m4 := 0, m8 := 0, m12 := 0,
    m1 := 0, m5 := y, m9 := 0, m13 := 0,
    m2 := 0, m6 := 0, m10 := z, m14 := 0,
    m3 := 0, m7 := 0, m11 := 0, m15 := 1 }

/-- Modelled from the spec: raymath.h is not under src/.  `MatrixTranslate(x, y, z)`,
the translation matrix of section 3 (translation in `m12`, `m13`, `m14`). -/
def MatrixTranslate (x y z : Scalar) : Matrix :=
  { m0 := 1, m4 := 0, m8 := 0, m12 := x,
    m1 := 0, m5 := 1, m9 := 0, m13 := y,
    m2 := 0, m6 := 0, m10 := 1, m14 := z,
    m3 := 0, m7 := 0, m11 := 0, m15 := 1 }

/-- Modelled from the spec: raymath.h is not under src/.  `QuaternionIdentity()`. -/
def QuaternionIdentity : Quaternion := { x := 0, y := 0, z := 0, w := 1 }

/-- Modelled from the spec: raymath.h is not under src/.  `QuaternionToMatrix(q)`,
the rotation matrix of the quaternion `q`. -/
def QuaternionToMatrix (q : Quaternion) : Matrix :=
  let a2 := q.x * q.x
  let b2 := q.y * q.y
  let c2 := q.z * q.z
  let ac := q.x * q.z
  let ab := q.x * q.y
  let bc := q.y * q.z
  let ad := q.w * q.x
  let bd := q.w * q.y
  let cd := q.w * q.z
  { m0 := 1 - 2 * (b2 + c2), m4 := 2 * (ab - cd), m8 := 2 * (ac + bd), m12 := 0,
    m1 := 2 * (ab + cd), m5 := 1 - 2 * (a2 + c2), m9 := 2 * (bc - ad), m13 := 0,
    m2 := 2 * (ac - bd), m6 := 2 * (bc + ad), m10 := 1 - 2 * (a2 + b2), m14 := 0,
    m3 := 0, m7 := 0, m11 := 0, m15 := 1 }

/-- Modelled from the spec: raymath.h is not under src/.  `MatrixMultiply(left, right)`:
the transformation `left` followed by the transformation `right` (section 3:
"scale applied, then rotation"). -/
def MatrixMultiply (left right : Matrix) : Matrix :=
  { m0 := left.m0 * right.m0 + left.m1 * right.m4 + left.m2 * right.m8 + left.m3 * right.m12,
    m1 := left.m0 * right.m1 + left.m1 * right.m5 + left.m2 * right.m9 + left.m3 * right.m13,
    m2 := left.m0 * right.m2 + left.m1 * right.m6 + left.m2 * right.m10 + left.m3 * right.m14,
    m3 := left.m0 * right.m3 + left.m1 * right.m7 + left.m2 * right.m11 + left.m3 * right.m15,
    m4 := left.m4 * right.m0 + left.m5 * right.m4 + left.m6 * right.m8 + left.m7 * right.m12,
    m5 := left.m4 * right.m1 + left.m5 * right.m5 + left.m6 * right.m9 + left.m7 * right.m13,
    m6 := left.m4 * right.m2 + left.m5 * right.m6 + left.m6 * right.m10 + left.m7 * right.m14,
    m7 := left.m4 * right.m3 + left.m5 * right.m7 + left.m6 * right.m11 + left.m7 * right.m15,
    m8 := left.m8 * right.m0 + left.m9 * right.m4 + left.m10 * right.m8 + left.m11 * right.m12,
    m9 := left.m8 * right.m1 + left.m9 * right.m5 + left.m10 * right.m9 + left.m11 * right.m13,
    m10 := left.m8 * right.m2 + left.m9 * right.m6 + left.m10 * right.m10 + left.m11 * right.m14,
    m11 := left.m8 * right.m3 + left.m9 * right.m7 + left.m10 * right.m11 + left.m11 * right.m15,
    m12 := left.m12 * right.m0 + left.m13 * right.m4 + left.m14 * right.m8 + left.m15 * right.m12,
    m13 := left.m12 * right.m1 + left.m13 * right.m5 + left.m14 * right.m9 + left.m15 * right.m13,
    m14 := left.m12 * right.m2 + left.m13 * right.m6 + left.m14 * right.m10 + left.m15 * right.m14,
    m15 := left.m12 * right.m3 + left.m13 * right.m7 + left.m14 * right.m11 + left.m15 * right.m15 }

/-- Modelled from the spec: raymath.h is not under src/.  `Vector3Transform(v, mat)`:
the image of the point `v` under the transformation `mat`. -/
def Vector3Transform (v : Vector3) (mat : Matrix) : Vector3 :=
  { x := mat.m0 * v.x + mat.m4 * v.y + mat.m8 * v.z + mat.m12,
    y := mat.m1 * v.x + mat.m5 * v.y + mat.m9 * v.z + mat.m13,
    z := mat.m2 * v.x + mat.m6 * v.y + mat.m10 * v.z + mat.m14 }

/-- Modelled from the spec: raymath.h is not under src/.  `Vector3Add(v1, v2)`. -/
def Vector3Add (v1 v2 : Vector3) : Vector3 :=
  { x := v1.x + v2.x, y := v1.y + v2.y, z := v1.z + v2.z }

/-! ## `PhysicsSystem` (`main.c` lines 152-187) -/

/-- The part of `ecs_iter_t` that `PhysicsSystem` reads and writes: the context
object of the world (`ecs_get_ctx(it->world)`), the frame delta time, and the
matched rows (`t[i]`, `p[i]`) for `i < it->count`. -/
structure ecs_iter_t (σ : Type) where
  ctx : Option (WorldContext σ)
  delta_time : Scalar
  rows : List (Transform3D × PhysicsBody)

/-- The number of matched entities, `it->count`. -/
def ecs_iter_t.count {σ : Type} (it : ecs_iter_t σ) : Nat := it.rows.length

/-- The body of the loop of `PhysicsSystem` (`main.c` lines 167-185) for one row:
read the pose of `p[i].body`, store it, recompute the two matrices. -/
def syncRow {σ : Type} (J : Joltc σ) (bodyInterface : JPH_BodyInterface) (s : σ)
    (row : Transform3D × PhysicsBody) : Transform3D × PhysicsBody :=
  let t := row.1
  let p := row.2
  let position := J.JPH_BodyInterface_GetCenterOfMassPosition bodyInterface s p.body
  let rotation := J.JPH_BodyInterface_GetRotation bodyInterface s p.body
  let t := { t with position := { x := position.x, y := position.y, z := position.z } }
  let t := { t with rotation := { x := rotation.x, y := rotation.y, z := rotation.z,
                                  w := rotation.w } }
  let matScale := MatrixScale t.scale.x t.scale.y t.scale.z
  let matRot := QuaternionToMatrix t.rotation
  let matTrans := MatrixTranslate t.position.x t.position.y t.position.z
  let t := { t with localMatrix := MatrixMultiply matScale matRot }
  let t := { t with worldMatrix := MatrixMultiply t.localMatrix matTrans }
  (t, p)

/-- The system callback `PhysicsSystem` (`main.c` lines 152-187).  Returns the
iterator after the call: the engine behind `ctx->physics->physicsSystem` and the
`Transform3D` rows are the two things the callback can change. -/
def PhysicsSystem {σ : Type} (J : Joltc σ) (it : ecs_iter_t σ) : ecs_iter_t σ :=
  match it.ctx with
  | none => it
  | some ctx =>
    match ctx.physics with
    | none => it
    | some physics =>
      match physics.physicsSystem, physics.bodyInterface, physics.jobSystem with
      | some physicsSystem, some bodyInterface, some jobSystem =>
        let physicsSystem := J.JPH_PhysicsSystem_Update physicsSystem PHYSICS_STEP 1 jobSystem
        { it with
          ctx := some { ctx with physics := some { physics with physicsSystem := some physicsSystem } },
          rows := it.rows.map (syncRow J bodyInterface physicsSystem) }
      | _, _, _ => it

/-- The guard of `PhysicsSystem` (`main.c` lines 157-158) passes: the context, its
physics pointer and the three handles are all present. -/
def guardPasses {σ : Type} (it : ecs_iter_t σ) : Bool :=
  match it.ctx with
  | none => false
  | some ctx =>
    match ctx.physics with
    | none => false
    | some physics =>
      physics.physicsSystem.isSome && physics.bodyInterface.isSome && physics.jobSystem.isSome

/-- The engine state behind `ctx->physics->physicsSystem`, when all pointers on
the way are present. -/
def engineOf {σ : Type} (it : ecs_iter_t σ) : Option σ :=
  (it.ctx.bind (fun ctx => ctx.physics)).bind (fun physics => physics.physicsSystem)

/-! ### A small engine used to evaluate the definitions on concrete inputs -/

/-- A test engine: a clock and a table of body poses. -/
structure TableEngine where
  clock : Scalar
  bodies : List (JPH_BodyID × Vector3 × Quaternion)
deriving DecidableEq

/-- Pose of a body in the table; an id that is not in the table reads as the
origin with the identity rotation. -/
def TableEngine.pose (s : TableEngine) (id : JPH_BodyID) : Vector3 × Quaternion :=
  match s.bodies.find? (fun b => b.1 == id) with
  | some b => b.2
  | none => ({ x := 0, y := 0, z := 0 }, QuaternionIdentity)

/-- Replace the pose of a body in the table. -/
def TableEngine.setPose (s : TableEngine) (id : JPH_BodyID) (f : Vector3 × Quaternion → Vector3 × Quaternion) :
    TableEngine :=
  { s with bodies := s.bodies.map (fun b => if b.1 == id then (b.1, f b.2) else b) }

/-- The test engine as an instance of the joltc interface: a step advances the
clock by the given time and leaves the bodies where they are. -/
def tableJoltc : Joltc TableEngine :=
  { JPH_PhysicsSystem_Update := fun s dt _ _ => { s with clock := s.clock + dt },
    JPH_BodyInterface_GetCenterOfMassPosition := fun _ s id => (s.pose id).1,
    JPH_BodyInterface_GetRotation := fun _ s id => (s.pose id).2,
    JPH_BodyInterface_SetPosition := fun _ s id v => s.setPose id (fun q => (v, q.2)),
    JPH_BodyInterface_SetRotation := fun _ s id r =>
      s.setPose id (fun q => (q.1, r.getD q.2)),
    JPH_BodyInterface_SetLinearVelocity := fun _ s _ _ => s }

/-- A context with every handle present, around the given engine state. -/
def fullCtx {σ : Type} (s : σ) : WorldContext σ :=
  { physics := some { physicsSystem := some s, bodyInterface := some ⟨1⟩, jobSystem := some ⟨2⟩ },
    camera := none }

/-- A transform at the origin with unit scale and identity matrices. -/
def unitTransform : Transform3D :=
  { position := { x := 0, y := 0, z := 0 }, rotation := QuaternionIdentity,
    scale := { x := 1, y := 1, z := 1 },
    localMatrix := MatrixIdentity, worldMatrix := MatrixIdentity }

/-- A test engine state whose body 7 rests at `(1,3,-2)` with the identity rotation. -/
def engineA : TableEngine :=
  { clock := 0, bodies := [(7, { x := 1, y := 3, z := -2 }, QuaternionIdentity)] }

/-- A test engine state whose body 7 rests at `(0,2,0)` with the identity rotation. -/
def engineB : TableEngine :=
  { clock := 0, bodies := [(7, { x := 0, y := 2, z := 0 }, QuaternionIdentity)] }

/-! ## The render systems (`main.c` lines 68-149, 189-193) -/

/-- The raylib colours the program uses. -/
inductive Color where
  | RED
  | GRAY
  | RAYWHITE
deriving DecidableEq

/-- The raylib calls the systems make; the program's only effect on the renderer
is the sequence of these calls, recorded in program order. -/
inductive RaylibCall where
  | BeginDrawing
  | ClearBackground (color : Color)
  | BeginMode3D (camera : Camera3D)
  | DrawModelWires (model : Model) (position : Vector3) (scale : Scalar) (tint : Color)
  | DrawGrid (slices : Nat) (spacing : Scalar)
  | EndMode3D
  | DrawFPS (posX : Int) (posY : Int)
  | EndDrawing
deriving DecidableEq

/-- `LogicUpdateSystem` (`main.c` lines 69-72): an empty body. -/
def LogicUpdateSystem (calls : List RaylibCall) : List RaylibCall := calls

/-- `RenderBeginSystem` (`main.c` lines 75-80). -/
def RenderBeginSystem (calls : List RaylibCall) : List RaylibCall :=
  calls ++ [RaylibCall.BeginDrawing, RaylibCall.ClearBackground Color.RAYWHITE]

/-- `BeginCameraSystem` (`main.c` lines 83-88): returns early when the context or
its camera is absent. -/
def BeginCameraSystem {σ : Type} (ctx : Option (WorldContext σ)) (calls : List RaylibCall) :
    List RaylibCall :=
  match ctx with
  | none => calls
  | some ctx =>
    match ctx.camera with
    | none => calls
    | some camera => calls ++ [RaylibCall.BeginMode3D camera]

/-- A row matched by `CameraRenderSystem`: the entity's name (`ecs_get_name`, which
may be null), `t[i]` and `m[i]`. -/
structure CameraRow where
  name : Option String
  t : Transform3D
  m : ModelComponent
deriving DecidableEq

/-- The body of the loop of `CameraRenderSystem` (`main.c` lines 113-129) for one row. -/
def cameraRenderRow (acc : List CameraRow × List RaylibCall) (row : CameraRow) :
    List CameraRow × List RaylibCall :=
  match row.m.model with
  | some model =>
    let color :=
      match row.name with
      | some name =>
        if name = "Cube" then Color.RED
        else if name = "Floor" then Color.GRAY
        else Color.RED
      | none => Color.RED
    let model := { model with transform := row.t.worldMatrix }
    (acc.1 ++ [{ row with m := { model := some model } }],
      acc.2 ++ [RaylibCall.DrawModelWires model { x := 0, y := 0, z := 0 } 1 color])
  | none => (acc.1 ++ [row], acc.2)

/-- `CameraRenderSystem` (`main.c` lines 107-132): the loop over the rows, then
`DrawGrid(10, 1.0f)`.  It does not read the world context. -/
def CameraRenderSystem (rows : List CameraRow) (calls : List RaylibCall) :
    List CameraRow × List RaylibCall :=
  let r := rows.foldl cameraRenderRow ([], calls)
  (r.1, r.2 ++ [RaylibCall.DrawGrid 10 1])

/-- `EndCameraSystem` (`main.c` lines 136-141): returns early when the context or
its camera is absent. -/
def EndCameraSystem {σ : Type} (ctx : Option (WorldContext σ)) (calls : List RaylibCall) :
    List RaylibCall :=
  match ctx with
  | none => calls
  | some ctx =>
    match ctx.camera with
    | none => calls
    | some _ => calls ++ [RaylibCall.EndMode3D]

/-- `RenderSystem` (`main.c` lines 145-149). -/
def RenderSystem (calls : List RaylibCall) : List RaylibCall :=
  calls ++ [RaylibCall.DrawFPS 10 10]

/-- `RenderEndSystem` (`main.c` lines 190-193). -/
def RenderEndSystem (calls : List RaylibCall) : List RaylibCall :=
  calls ++ [RaylibCall.EndDrawing]

/-! ## Phases and systems registered by `main` (`main.c` lines 296-366) -/

/-- The phases `main` refers to: the built-in `EcsPreUpdate` and the seven custom
phases created at lines 298-304. -/
inductive Phase where
  | EcsPreUpdate
  | LogicUpdatePhase
  | BeginRenderPhase
  | BeginCameraPhase
  | UpdateCameraPhase
  | EndCameraPhase
  | RenderPhase
  | EndRenderPhase
deriving DecidableEq

/-- The seven custom phases, in the order of their creation (lines 298-304). -/
def customPhases : List Phase :=
  [Phase.LogicUpdatePhase, Phase.BeginRenderPhase, Phase.BeginCameraPhase,
   Phase.UpdateCameraPhase, Phase.EndCameraPhase, Phase.RenderPhase, Phase.EndRenderPhase]

/-- The pairs `ecs_add_pair(world, phase, EcsDependsOn, predecessor)` of lines
307-313, as `(phase, predecessor)`. -/
def phaseDependencies : List (Phase × Phase) :=
  [(Phase.LogicUpdatePhase, Phase.EcsPreUpdate),
   (Phase.BeginRenderPhase, Phase.LogicUpdatePhase),
   (Phase.BeginCameraPhase, Phase.BeginRenderPhase),
   (Phase.UpdateCameraPhase, Phase.BeginCameraPhase),
   (Phase.EndCameraPhase, Phase.UpdateCameraPhase),
   (Phase.RenderPhase, Phase.EndCameraPhase),
   (Phase.EndRenderPhase, Phase.RenderPhase)]

/-- The relation "`p` depends on `q`" declared by `main`. -/
def DependsOn (p q : Phase) : Prop := (p, q) ∈ phaseDependencies

/-- The eight system callbacks of `main.c`. -/
inductive SystemId where
  | LogicUpdateSystem
  | PhysicsSystem
  | RenderBeginSystem
  | BeginCameraSystem
  | CameraRenderSystem
  | EndCameraSystem
  | RenderSystem
  | RenderEndSystem
deriving DecidableEq

/-- The `ecs_system_init` calls of lines 316-366 in program order: each system with
the phase it is added to. -/
def registeredSystems : List (SystemId × Phase) :=
  [(SystemId.LogicUpdateSystem, Phase.LogicUpdatePhase),
   (SystemId.PhysicsSystem, Phase.LogicUpdatePhase),
   (SystemId.RenderBeginSystem, Phase.BeginRenderPhase),
   (SystemId.BeginCameraSystem, Phase.BeginCameraPhase),
   (SystemId.CameraRenderSystem, Phase.UpdateCameraPhase),
   (SystemId.EndCameraSystem, Phase.EndCameraPhase),
   (SystemId.RenderSystem, Phase.RenderPhase),
   (SystemId.RenderEndSystem, Phase.EndRenderPhase)]

/-- An order of phases puts every custom phase after its declared predecessor,
for the predecessors that are custom phases themselves. -/
def RespectsDependencies (order : List Phase) : Prop :=
  ∀ pq ∈ phaseDependencies, pq.2 ∈ customPhases →
    order.indexOf pq.2 < order.indexOf pq.1

/-- Modelled from the spec: the frame scheduler (flecs `ecs_progress`) is not
under src/.  Section 4.2: the systems run in the resolved phase order, in
registration order within a phase.  This is the sequence of systems of one frame. -/
def frameSchedule (order : List Phase) (systems : List (SystemId × Phase)) : List SystemId :=
  order.flatMap (fun phase => (systems.filter (fun s => s.2 = phase)).map (fun s => s.1))

/-! ## The world and one frame -/

/-- An entity of the world with the components the program uses. -/
structure Entity where
  name : Option String
  transform : Option Transform3D
  model : Option ModelComponent
  body : Option PhysicsBody
deriving DecidableEq

/-- The flecs world as far as the systems can see it: the context object
(`ecs_set_ctx` / `ecs_get_ctx`), the entities, and the raylib calls made so far.
`invoked` records the system callbacks invoked so far, in the order of their
invocation. -/
structure World (σ : Type) where
  ctx : Option (WorldContext σ)
  entities : List Entity
  calls : List RaylibCall
  invoked : List SystemId

/-- Modelled from the spec: query matching (flecs) is not under src/.  The rows
of the query `Transform3D, PhysicsBody`: the entities that have both. -/
def physicsRows (entities : List Entity) : List (Transform3D × PhysicsBody) :=
  entities.filterMap (fun e =>
    match e.transform, e.body with
    | some t, some p => some (t, p)
    | _, _ => none)

/-- Modelled from the spec: query matching (flecs) is not under src/.  Write the
rows of the query `Transform3D, PhysicsBody` back to the entities they came from. -/
def storePhysicsRows : List Entity → List (Transform3D × PhysicsBody) → List Entity
  | [], _ => []
  | e :: es, rows =>
    match e.transform, e.body, rows with
    | some _, some _, r :: rs => { e with transform := some r.1 } :: storePhysicsRows es rs
    | some _, some _, [] => e :: storePhysicsRows es []
    | _, _, rows => e :: storePhysicsRows es rows

/-- Modelled from the spec: query matching (flecs) is not under src/.  The rows
of the query `Transform3D, ModelComponent`: the entities that have both. -/
def cameraRows (entities : List Entity) : List CameraRow :=
  entities.filterMap (fun e =>
    match e.transform, e.model with
    | some t, some m => some { name := e.name, t := t, m := m }
    | _, _ => none)

/-- Modelled from the spec: query matching (flecs) is not under src/.  Write the
rows of the query `Transform3D, ModelComponent` back to the entities they came from. -/
def storeCameraRows : List Entity → List CameraRow → List Entity
  | [], _ => []
  | e :: es, rows =>
    match e.transform, e.model, rows with
    | some _, some _, r :: rs =>
      { e with transform := some r.t, model := some r.m } :: storeCameraRows es rs
    | some _, some _, [] => e :: storeCameraRows es []
    | _, _, rows => e :: storeCameraRows es rows

/-- One invocation of a system on the world: the callback of `main.c`, given the
rows of its query, and the record of the invocation.  All matching entities come
in one batch, as the entities of `main` do, which have the same components. -/
def runSystem {σ : Type} (J : Joltc σ) (delta_time : Scalar) (w : World σ) :
    SystemId → World σ
  | SystemId.LogicUpdateSystem =>
    { w with calls := LogicUpdateSystem w.calls,
             invoked := w.invoked ++ [SystemId.LogicUpdateSystem] }
  | SystemId.PhysicsSystem =>
    let it := PhysicsSystem J
      { ctx := w.ctx, delta_time := delta_time, rows := physicsRows w.entities }
    { w with ctx := it.ctx, entities := storePhysicsRows w.entities it.rows,
             invoked := w.invoked ++ [SystemId.PhysicsSystem] }
  | SystemId.RenderBeginSystem =>
    { w with calls := RenderBeginSystem w.calls,
             invoked := w.invoked ++ [SystemId.RenderBeginSystem] }
  | SystemId.BeginCameraSystem =>
    { w with calls := BeginCameraSystem w.ctx w.calls,
             invoked := w.invoked ++ [SystemId.BeginCameraSystem] }
  | SystemId.CameraRenderSystem =>
    let r := CameraRenderSystem (cameraRows w.entities) w.calls
    { w with entities := storeCameraRows w.entities r.1, calls := r.2,
             invoked := w.invoked ++ [SystemId.CameraRenderSystem] }
  | SystemId.EndCameraSystem =>
    { w with calls := EndCameraSystem w.ctx w.calls,
             invoked := w.invoked ++ [SystemId.EndCameraSystem] }
  | SystemId.RenderSystem =>
    { w with calls := RenderSystem w.calls,
             invoked := w.invoked ++ [SystemId.RenderSystem] }
  | SystemId.RenderEndSystem =>
    { w with calls := RenderEndSystem w.calls,
             invoked := w.invoked ++ [SystemId.RenderEndSystem] }

/-- Modelled from the spec: the frame scheduler (flecs `ecs_progress`) is not
under src/.  One frame: every registered system once, in the schedule of the
custom phases taken in their dependency order. -/
def ecs_progress {σ : Type} (J : Joltc σ) (delta_time : Scalar) (w : World σ) : World σ :=
  (frameSchedule customPhases registeredSystems).foldl (runSystem J delta_time) w

/-! ## The render bracket state machine (section 4.4 of the spec) -/

/-- The per-frame render states of section 4.4. -/
inductive RenderState where
  | Idle
  | FrameBegun
  | CameraBegun
  | CameraEnded
  | FrameEnded
deriving DecidableEq

/-- Modelled from the spec: section 4.4.  The state after a raylib call: the four
bracket calls drive the transitions, every other call leaves the state as it is. -/
def RenderState.step (st : RenderState) : RaylibCall → RenderState
  | RaylibCall.BeginDrawing => RenderState.FrameBegun
  | RaylibCall.BeginMode3D _ => RenderState.CameraBegun
  | RaylibCall.EndMode3D => RenderState.CameraEnded
  | RaylibCall.EndDrawing => RenderState.FrameEnded
  | _ => st

/-- A draw call of the model-draw system: `DrawModelWires` or `DrawGrid`. -/
def RaylibCall.isModelDraw : RaylibCall → Bool
  | RaylibCall.DrawModelWires _ _ _ _ => true
  | RaylibCall.DrawGrid _ _ => true
  | _ => false

/-- The render states in which the model draw calls of a trace are issued, the
trace starting in state `st`. -/
def drawStates (st : RenderState) : List RaylibCall → List RenderState
  | [] => []
  | c :: cs => if c.isModelDraw then st :: drawStates st cs else drawStates (st.step c) cs

/-! ## `main` (`main.c` lines 196-532) -/

/-- The rotation drawn at lines 467-472 from four results of `rand()`:
each component is `(float)(rand() % 360) / 360.0f`. -/
def randomRotation (r1 r2 r3 r4 : Nat) : Quaternion :=
  { x := ((r1 % 360 : Nat) : Scalar) / 360,
    y := ((r2 % 360 : Nat) : Scalar) / 360,
    z := ((r3 % 360 : Nat) : Scalar) / 360,
    w := ((r4 % 360 : Nat) : Scalar) / 360 }

/-- The argument of `sqrt` at line 474: the sum of the squares of the components. -/
def quaternionNormSq (q : Quaternion) : Scalar :=
  q.x * q.x + q.y * q.y + q.z * q.z + q.w * q.w

/-- Line 475: every component divided by `norm`.  A division by zero has no
number as its result; `none` stands for the quaternion it leaves behind. -/
def normalizeRotation (norm : Scalar) (q : Quaternion) : Option Quaternion :=
  if norm = 0 then none
  else some { x := q.x / norm, y := q.y / norm, z := q.z / norm, w := q.w / norm }

/-- The position drawn at lines 462-466 from three results of `rand()`. -/
def randomPosition (r1 r2 r3 : Nat) : Vector3 :=
  { x := ((r1 % 5 : Nat) : Scalar) - 5,
    y := ((r2 % 10 : Nat) : Scalar) + 5,
    z := ((r3 % 5 : Nat) : Scalar) - 5 }

/-- The block run when the R key is pressed (lines 461-484), on the engine state:
`rand n`, `rand (n+1)`, ... are the results of the seven calls of `rand()`, taken
in the order in which they are written, and `sqrt` is the C library function. -/
def resetCube {σ : Type} (J : Joltc σ) (bodyInterface : JPH_BodyInterface) (cubeId : JPH_BodyID)
    (sqrt : Scalar → Scalar) (rand : Nat → Nat) (n : Nat) (s : σ) : σ :=
  let newPos := randomPosition (rand n) (rand (n + 1)) (rand (n + 2))
  let newRot := randomRotation (rand (n + 3)) (rand (n + 4)) (rand (n + 5)) (rand (n + 6))
  let norm := sqrt (quaternionNormSq newRot)
  let newRot := normalizeRotation norm newRot
  let s := J.JPH_BodyInterface_SetPosition bodyInterface s cubeId newPos
  let s := J.JPH_BodyInterface_SetRotation bodyInterface s cubeId newRot
  J.JPH_BodyInterface_SetLinearVelocity bodyInterface s cubeId { x := 0, y := 0, z := 0 }

/-- What the libraries and the user answer to `main` during one run. -/
structure MainEnv (σ : Type) where
  /-- The result of `JPH_Init()` (line 209). -/
  JPH_Init : Bool
  /-- The result of `JPH_JobSystemThreadPool_Create(NULL)` (line 216), null or not. -/
  JPH_JobSystemThreadPool_Create : Option JPH_JobSystem
  /-- The result of `JPH_PhysicsSystem_Create(&settings)` (line 242), null or not;
  a non-null result is given as the state of the engine once the set-up calls of
  lines 243-282 (gravity, floor and cube bodies, broad phase) have run on it. -/
  JPH_PhysicsSystem_Create : Option σ
  /-- The result of `JPH_PhysicsSystem_GetBodyInterface` for a non-null system. -/
  JPH_PhysicsSystem_GetBodyInterface : JPH_BodyInterface
  /-- The id of the floor body (line 259). -/
  floorId : JPH_BodyID
  /-- The id of the cube body (line 278). -/
  cubeId : JPH_BodyID
  /-- The number of times `WindowShouldClose()` answers false (line 430). -/
  frames : Nat
  /-- The frame delta time flecs measures in frame `k`. -/
  delta_time : Nat → Scalar
  /-- The result of `IsKeyPressed(KEY_R)` in frame `k` (line 461). -/
  IsKeyPressed_R : Nat → Bool
  /-- The result of the `n`-th call of `rand()`. -/
  rand : Nat → Nat
  /-- The C library function `sqrt`. -/
  sqrt : Scalar → Scalar

/-- What `main` does that can be observed from outside, in program order; a
`printf` is recorded by its format string. -/
inductive MainEvent where
  | printf (format : String)
  | InitWindow
  | ecs_progress
  | CloseWindow
deriving DecidableEq

/-- The camera set up at lines 289-294 (`CAMERA_PERSPECTIVE` is `0`). -/
def mainCamera : Camera3D :=
  { position := { x := 10, y := 10, z := 10 }, target := { x := 0, y := 0, z := 0 },
    up := { x := 0, y := 1, z := 0 }, fovy := 45, projection := 0 }

/-- The floor entity created at lines 399-411. -/
def floorEntity (floorId : JPH_BodyID) : Entity :=
  { name := some "Floor",
    transform := some
      { position := { x := 0, y := -1, z := 0 }, rotation := QuaternionIdentity,
        scale := { x := 20, y := 1 / 2, z := 20 },
        localMatrix := MatrixIdentity, worldMatrix := MatrixIdentity },
    model := some { model := some { transform := MatrixIdentity } },
    body := some { body := floorId } }

/-- The cube entity created at lines 414-425. -/
def cubeEntity (cubeId : JPH_BodyID) : Entity :=
  { name := some "Cube",
    transform := some
      { position := { x := 0, y := 2, z := 0 }, rotation := QuaternionIdentity,
        scale := { x := 1, y := 1, z := 1 },
        localMatrix := MatrixIdentity, worldMatrix := MatrixIdentity },
    model := some { model := some { transform := MatrixIdentity } },
    body := some { body := cubeId } }

/-- The world when the loop starts (lines 368-425): the context set by
`ecs_set_ctx` and the two entities. -/
def initialWorld {σ : Type} (env : MainEnv σ) (physicsSystem : σ) : World σ :=
  { ctx := some
      { physics := some
          { physicsSystem := some physicsSystem,
            bodyInterface := some env.JPH_PhysicsSystem_GetBodyInterface,
            jobSystem := env.JPH_JobSystemThreadPool_Create },
        camera := some mainCamera },
    entities := [floorEntity env.floorId, cubeEntity env.cubeId],
    calls := [],
    invoked := [] }

/-- Apply a change to the engine state behind the context of the world. -/
def World.mapEngine {σ : Type} (f : σ → σ) (w : World σ) : World σ :=
  { w with ctx := w.ctx.map (fun ctx =>
      { ctx with physics := ctx.physics.map (fun physics =>
          { physics with physicsSystem := physics.physicsSystem.map f }) }) }

/-- The state of the loop of `main`: the world, the number of `rand()` calls made
so far, and the events so far. -/
structure LoopState (σ : Type) where
  world : World σ
  randCalls : Nat
  events : List MainEvent

/-- One iteration of the loop of `main` (lines 430-496), frame number `k`.  The two
getter calls of lines 443-444 only read the engine and are left out. -/
def mainLoopBody {σ : Type} (J : Joltc σ) (env : MainEnv σ) (st : LoopState σ) (k : Nat) :
    LoopState σ :=
  let world := ecs_progress J (env.delta_time k) st.world
  let events := st.events ++ [MainEvent.ecs_progress]
  if env.IsKeyPressed_R k then
    { world := world.mapEngine
        (resetCube J env.JPH_PhysicsSystem_GetBodyInterface env.cubeId env.sqrt env.rand
          st.randCalls),
      randCalls := st.randCalls + 7,
      events := events }
  else
    { world := world, randCalls := st.randCalls, events := events }

/-- The loop of `main`: `env.frames` iterations. -/
def mainLoop {σ : Type} (J : Joltc σ) (env : MainEnv σ) (st : LoopState σ) : LoopState σ :=
  (List.range env.frames).foldl (mainLoopBody J env) st

/-- The result of a run of `main`: the exit status, the events, and the world at
the end of the loop (when the loop was reached). -/
structure MainResult (σ : Type) where
  status : Int
  events : List MainEvent
  world : Option (World σ)

/-- The function `main` (`main.c` lines 196-532).  When `JPH_PhysicsSystem_Create`
returns null the source hands the null pointer on to joltc
(`JPH_PhysicsSystem_GetBodyInterface` at line 243 and the calls after it) without
a test; what joltc does with it is not in the source, and the embedding gives no
result (`none`) for such a run. -/
def main {σ : Type} (J : Joltc σ) (env : MainEnv σ) : Option (MainResult σ) :=
  let events := [MainEvent.printf "init jolt physics\n"]
  if !env.JPH_Init then
    some { status := 1,
           events := events ++ [MainEvent.printf "Failed to initialize Jolt Physics\n"],
           world := none }
  else
    let events := events ++
      (match env.JPH_JobSystemThreadPool_Create with
       | none => [MainEvent.printf "Failed to create job system, proceeding without it\n"]
       | some _ => [MainEvent.printf "Job system created\n"])
    match env.JPH_PhysicsSystem_Create with
    | none => none
    | some physicsSystem =>
      let events := events ++
        [MainEvent.printf "Gravity: (%.2f, %.2f, %.2f)\n",
         MainEvent.printf "Create floor\n",
         MainEvent.printf "Create cube\n",
         MainEvent.InitWindow]
      let world := initialWorld env physicsSystem
      let events := events ++ [MainEvent.printf "Starting main loop\n"]
      let st := mainLoop J env { world := world, randCalls := 0, events := events }
      some { status := 0,
             events := st.events ++
               [MainEvent.printf "clean up\n", MainEvent.CloseWindow, MainEvent.printf "finish\n"],
             world := some st.world }

/-- A square root on the rationals for evaluating the definitions on concrete
inputs: exact on the squares of rationals, in particular on `0`. -/
def ratSqrt (x : Scalar) : Scalar :=
  (Nat.sqrt x.num.toNat : Scalar) / (Nat.sqrt x.den : Scalar)

/-- A run environment for the test engine: `JPH_Init` succeeds, no job system
could be created, the engine holds the floor (id 1) and the cube (id 2), and the
window closes after two frames with no key pressed. -/
def envNoJobSystem : MainEnv TableEngine :=
  { JPH_Init := true,
    JPH_JobSystemThreadPool_Create := none,
    JPH_PhysicsSystem_Create := some
      { clock := 0,
        bodies := [(1, { x := 0, y := -1, z := 0 }, QuaternionIdentity),
                   (2, { x := 0, y := 2, z := 0 }, QuaternionIdentity)] },
    JPH_PhysicsSystem_GetBodyInterface := ⟨1⟩,
    floorId := 1,
    cubeId := 2,
    frames := 2,
    delta_time := fun _ => 1 / 60,
    IsKeyPressed_R := fun _ => false,
    rand := fun _ => 0,
    sqrt := ratSqrt }

/-- A run environment in which `JPH_Init` fails. -/
def envInitFails : MainEnv TableEngine :=
  { envNoJobSystem with JPH_Init := false }

/-- The position of a phase in the chain of dependencies declared by `main`. -/
def phaseRank : Phase → Nat
  | Phase.EcsPreUpdate => 0
  | Phase.LogicUpdatePhase => 1
  | Phase.BeginRenderPhase => 2
  | Phase.BeginCameraPhase => 3
  | Phase.UpdateCameraPhase => 4
  | Phase.EndCameraPhase => 5
  | Phase.RenderPhase => 6
  | Phase.EndRenderPhase => 7

/-- A world without a context object, holding the floor entity. -/
def worldNoCtx : World TableEngine :=
  { ctx := none, entities := [floorEntity 1], calls := [], invoked := [] }

/-- A world whose context has the physics handles but no camera, holding the
floor entity. -/
def worldNoCamera : World TableEngine :=
  { ctx := some (fullCtx engineA), entities := [floorEntity 1], calls := [], invoked := [] }

/-- The `Transform3D` of the floor entity as `main` creates it (lines 401-407). -/
def floorTransform : Transform3D :=
  { position := { x := 0, y := -1, z := 0 }, rotation := QuaternionIdentity,
    scale := { x := 20, y := 1 / 2, z := 20 },
    localMatrix := MatrixIdentity, worldMatrix := MatrixIdentity }

/-- An iterator with every handle present, over an engine that holds no body at
all, and one row: the floor transform bound to body 7. -/
def iterDestroyedBody : ecs_iter_t TableEngine :=
  { ctx := some (fullCtx { clock := 0, bodies := [] }),
    delta_time := 1 / 60,
    rows := [(floorTransform, { body := 7 })] }

/-! ## Phase resolution (section 4.1 of the spec) -/

/-- A registered phase: its identifier and the identifiers of the phases it
declares as predecessors. -/
structure PhaseDecl where
  id : Nat
  dependsOn : List Nat
deriving DecidableEq

/-- A phase is ready when all its predecessors have been placed in the order. -/
def PhaseDecl.ready (done : List Nat) (d : PhaseDecl) : Bool :=
  d.dependsOn.all (fun q => decide (q ∈ done))

/-- Modelled from the spec: the phase resolver (flecs) is not under src/.
Section 4.1: Kahn's topological sort, ties broken by registration order.  While
a phase is pending, the first registered pending phase whose predecessors have all
been placed is placed next; when no pending phase is ready (a cycle, or a
predecessor that was never registered) the resolution fails.  `fuel` bounds the
number of rounds. -/
def resolveLoop : Nat → List PhaseDecl → List Nat → Option (List Nat)
  | _, [], done => some done
  | 0, _ :: _, _ => none
  | fuel + 1, d0 :: ds, done =>
    match (d0 :: ds).find? (PhaseDecl.ready done) with
    | none => none
    | some d => resolveLoop fuel ((d0 :: ds).erase d) (done ++ [d.id])

/-- Modelled from the spec: the phase resolver (flecs) is not under src/.
Section 4.1: the execution order of the registered phases, or `none` when the
registrations are rejected.  One round places one phase, so as many rounds as
there are registrations are enough. -/
def resolvePhases (decls : List PhaseDecl) : Option (List Nat) :=
  resolveLoop decls.length decls []

/-- The depends-on relation of a list of registrations: `p` declares `q` as a
predecessor. -/
def PhaseDep (decls : List PhaseDecl) (p q : Nat) : Prop :=
  ∃ d ∈ decls, d.id = p ∧ q ∈ d.dependsOn

/-- The invariant of the resolution loop: the placed and the pending phases
together are the registered ones, and every phase that is no longer pending has
all its predecessors placed before it. -/
def ResolveInv (decls pending : List PhaseDecl) (done : List Nat) : Prop :=
  (done ++ pending.map (fun d => d.id)).Perm (decls.map (fun d => d.id)) ∧
  (∀ d ∈ pending, d ∈ decls) ∧
  (∀ d ∈ decls, d ∈ pending ∨
    ∀ q ∈ d.dependsOn, q ∈ done ∧ done.indexOf q < done.indexOf d.id)

/-- The registrations of the scenario of section 8: C (id 3, after B) is declared
first, then A (id 1), then B (id 2, after A). -/
def declsCAB : List PhaseDecl :=
  [{ id := 3, dependsOn := [2] }, { id := 1, dependsOn := [] }, { id := 2, dependsOn := [1] }]

/-- Registrations with a cycle of length two. -/
def declsCycle : List PhaseDecl :=
  [{ id := 1, dependsOn := [2] }, { id := 2, dependsOn := [1] }]

/-- The phases of `main` as registrations, numbered by `phaseRank`: the built-in
`EcsPreUpdate` (0) and the seven custom phases, each with the predecessor that
lines 307-313 declare, in the order of lines 298-304. -/
def mainPhaseDecls : List PhaseDecl :=
  [{ id := 0, dependsOn := [] },
   { id := 1, dependsOn := [0] },
   { id := 2, dependsOn := [1] },
   { id := 3, dependsOn := [2] },
   { id := 4, dependsOn := [3] },
   { id := 5, dependsOn := [4] },
   { id := 6, dependsOn := [5] },
   { id := 7, dependsOn := [6] }]

/-- The state of the loop of `main` when `k` iterations have run, from the world
that `main` sets up around the engine state `s`. -/
def mainLoopAfter {σ : Type} (J : Joltc σ) (env : MainEnv σ) (s : σ) (k : Nat) : LoopState σ :=
  (List.range k).foldl (mainLoopBody J env)
    { world := initialWorld env s, randCalls := 0, events := [] }

/-- The engine state, and the number of `rand()` calls, that the R-key blocks of
the first `k` frames alone produce from the engine state `s`: no simulation step
is taken between them. -/
def resetsAfter {σ : Type} (J : Joltc σ) (env : MainEnv σ) (s : σ) (k : Nat) : σ × Nat :=
  (List.range k).foldl
    (fun acc j =>
      if env.IsKeyPressed_R j then
        (resetCube J env.JPH_PhysicsSystem_GetBodyInterface env.cubeId env.sqrt env.rand
          acc.2 acc.1, acc.2 + 7)
      else acc)
    (s, 0)

/-- The render state after a sequence of raylib calls, from the state `st`. -/
def renderStateAfter (st : RenderState) (calls : List RaylibCall) : RenderState :=
  calls.foldl RenderState.step st

/-! ## Theorems -/

/-- Unfolding of `PhysicsSystem` when every pointer of the guard is present. -/
theorem PhysicsSystem_of_present {σ : Type} (J : Joltc σ) (it : ecs_iter_t σ)
    (ctx : WorldContext σ) (physics : JoltcPhysics σ) (s : σ)
    (bi : JPH_BodyInterface) (js : JPH_JobSystem)
    (hctx : it.ctx = some ctx) (hph : ctx.physics = some physics)
    (hs : physics.physicsSystem = some s) (hbi : physics.bodyInterface = some bi)
    (hjs : physics.jobSystem = some js) :
    PhysicsSystem J it =
      { it with
        ctx := some { ctx with physics := some { physics with
          physicsSystem := some (J.JPH_PhysicsSystem_Update s PHYSICS_STEP 1 js) } },
        rows := it.rows.map (syncRow J bi (J.JPH_PhysicsSystem_Update s PHYSICS_STEP 1 js)) } := by
  unfold PhysicsSystem
  simp only [hctx, hph, hs, hbi, hjs]

/-- Unfolding of `PhysicsSystem` when the guard fails. -/
theorem PhysicsSystem_of_guard_false {σ : Type} (J : Joltc σ) (it : ecs_iter_t σ)
    (h : guardPasses it = false) : PhysicsSystem J it = it := by
  unfold PhysicsSystem
  unfold guardPasses at h
  cases hctx : it.ctx with
  | none => rfl
  | some ctx =>
    simp only [hctx] at h ⊢
    cases hph : ctx.physics with
    | none => rfl
    | some physics =>
      simp only [hph] at h ⊢
      cases hs : physics.physicsSystem <;> cases hbi : physics.bodyInterface <;>
        cases hjs : physics.jobSystem <;> simp_all

/-- The row `i` of `PhysicsSystem`'s result, when every pointer of the guard is present. -/
theorem PhysicsSystem_row {σ : Type} (J : Joltc σ) (it : ecs_iter_t σ)
    (ctx : WorldContext σ) (physics : JoltcPhysics σ) (s : σ)
    (bi : JPH_BodyInterface) (js : JPH_JobSystem)
    (hctx : it.ctx = some ctx) (hph : ctx.physics = some physics)
    (hs : physics.physicsSystem = some s) (hbi : physics.bodyInterface = some bi)
    (hjs : physics.jobSystem = some js)
    (i : Nat) (row : Transform3D × PhysicsBody) (hrow : it.rows[i]? = some row) :
    (PhysicsSystem J it).rows[i]? =
      some (syncRow J bi (J.JPH_PhysicsSystem_Update s PHYSICS_STEP 1 js) row) := by
  rw [PhysicsSystem_of_present J it ctx physics s bi js hctx hph hs hbi hjs]
  simp [hrow]

/-- C1: when the context, its physics pointer and the three handles are present,
one call of `PhysicsSystem` keeps the number of rows and the body of every row,
and leaves in every row `i` the centre-of-mass position and the rotation that the
engine reports for body `p[i]` after the simulation step of that call. -/
theorem PhysicsSystem_writes_engine_pose {σ : Type} (J : Joltc σ) (it : ecs_iter_t σ)
    (ctx : WorldContext σ) (physics : JoltcPhysics σ) (s : σ)
    (bi : JPH_BodyInterface) (js : JPH_JobSystem)
    (hctx : it.ctx = some ctx) (hph : ctx.physics = some physics)
    (hs : physics.physicsSystem = some s) (hbi : physics.bodyInterface = some bi)
    (hjs : physics.jobSystem = some js)
    (i : Nat) (t : Transform3D) (p : PhysicsBody) (hrow : it.rows[i]? = some (t, p)) :
    (PhysicsSystem J it).count = it.count ∧
    ∃ t2 : Transform3D, (PhysicsSystem J it).rows[i]? = some (t2, p) ∧
      t2.position = J.JPH_BodyInterface_GetCenterOfMassPosition bi
        (J.JPH_PhysicsSystem_Update s PHYSICS_STEP 1 js) p.body ∧
      t2.rotation = J.JPH_BodyInterface_GetRotation bi
        (J.JPH_PhysicsSystem_Update s PHYSICS_STEP 1 js) p.body := by
  refine ⟨?_, ?_⟩
  · rw [PhysicsSystem_of_present J it ctx physics s bi js hctx hph hs hbi hjs]
    simp [ecs_iter_t.count]
  · refine ⟨(syncRow J bi (J.JPH_PhysicsSystem_Update s PHYSICS_STEP 1 js) (t, p)).1, ?_, rfl, rfl⟩
    rw [PhysicsSystem_row J it ctx physics s bi js hctx hph hs hbi hjs i (t, p) hrow]
    rfl

/-- Witness for C1: the engine reports `(1,3,-2)` / `(0,0,0,1)` for body 7. -/
theorem PhysicsSystem_writes_engine_pose_witness :
    ∃ t2 : Transform3D,
      (PhysicsSystem tableJoltc
        { ctx := some (fullCtx engineA), delta_time := 5,
          rows := [(unitTransform, { body := 7 })] }).rows[0]? = some (t2, { body := 7 }) ∧
      t2.position = { x := 1, y := 3, z := -2 } ∧
      t2.rotation = { x := 0, y := 0, z := 0, w := 1 } := by
  obtain ⟨t2, h1, h2, h3⟩ := (PhysicsSystem_writes_engine_pose tableJoltc
    { ctx := some (fullCtx engineA), delta_time := 5, rows := [(unitTransform, { body := 7 })] }
    (fullCtx engineA) _ engineA ⟨1⟩ ⟨2⟩ rfl rfl rfl rfl rfl 0 unitTransform { body := 7 } rfl).2
  exact ⟨t2, h1, by rw [h2]; decide, by rw [h3]; decide⟩

/-- A product of two transformations maps a point by the left one and then by the
right one, when the left one is affine (last row `0 0 0 1`). -/
theorem Vector3Transform_MatrixMultiply (v : Vector3) (a b : Matrix)
    (h3 : a.m3 = 0) (h7 : a.m7 = 0) (h11 : a.m11 = 0) (h15 : a.m15 = 1) :
    Vector3Transform v (MatrixMultiply a b) = Vector3Transform (Vector3Transform v a) b := by
  simp only [Vector3Transform, MatrixMultiply, h3, h7, h11, h15, Vector3.mk.injEq]
  refine ⟨?_, ?_, ?_⟩ <;> ring

/-- A translation matrix maps a point to its sum with the translation vector. -/
theorem Vector3Transform_MatrixTranslate (v p : Vector3) :
    Vector3Transform v (MatrixTranslate p.x p.y p.z) = Vector3Add v p := by
  simp only [Vector3Transform, MatrixTranslate, Vector3Add, Vector3.mk.injEq]
  refine ⟨?_, ?_, ?_⟩ <;> ring

/-- The matrices written by the loop body, and the point map of the world matrix. -/
theorem syncRow_matrices {σ : Type} (J : Joltc σ) (bi : JPH_BodyInterface) (s : σ)
    (t : Transform3D) (p : PhysicsBody) :
    (syncRow J bi s (t, p)).1.scale = t.scale ∧
    (syncRow J bi s (t, p)).1.localMatrix =
      MatrixMultiply (MatrixScale t.scale.x t.scale.y t.scale.z)
        (QuaternionToMatrix (syncRow J bi s (t, p)).1.rotation) ∧
    (syncRow J bi s (t, p)).1.worldMatrix =
      MatrixMultiply (syncRow J bi s (t, p)).1.localMatrix
        (MatrixTranslate (syncRow J bi s (t, p)).1.position.x
          (syncRow J bi s (t, p)).1.position.y (syncRow J bi s (t, p)).1.position.z) ∧
    ∀ v : Vector3, Vector3Transform v (syncRow J bi s (t, p)).1.worldMatrix =
      Vector3Add
        (Vector3Transform (Vector3Transform v (MatrixScale t.scale.x t.scale.y t.scale.z))
          (QuaternionToMatrix (syncRow J bi s (t, p)).1.rotation))
        (syncRow J bi s (t, p)).1.position := by
  refine ⟨rfl, rfl, rfl, ?_⟩
  intro v
  have hw : (syncRow J bi s (t, p)).1.worldMatrix =
      MatrixMultiply (MatrixMultiply (MatrixScale t.scale.x t.scale.y t.scale.z)
        (QuaternionToMatrix (syncRow J bi s (t, p)).1.rotation))
        (MatrixTranslate (syncRow J bi s (t, p)).1.position.x
          (syncRow J bi s (t, p)).1.position.y (syncRow J bi s (t, p)).1.position.z) := rfl
  rw [hw, Vector3Transform_MatrixMultiply, Vector3Transform_MatrixMultiply,
    Vector3Transform_MatrixTranslate]
  · rfl
  · rfl
  · rfl
  · rfl
  · simp [MatrixMultiply, MatrixScale, QuaternionToMatrix]
  · simp [MatrixMultiply, MatrixScale, QuaternionToMatrix]
  · simp [MatrixMultiply, MatrixScale, QuaternionToMatrix]
  · simp [MatrixMultiply, MatrixScale, QuaternionToMatrix]

/-- C2: for every row processed by `PhysicsSystem` (guard passing), after the call
the scale is unchanged, position and rotation are the freshly read engine values,
`localMatrix = MatrixMultiply(MatrixScale(scale), QuaternionToMatrix(rotation))` and
`worldMatrix = MatrixMultiply(localMatrix, MatrixTranslate(position))`; the world
matrix maps a point by scaling, then rotating, then translating to `position`; and
with position `(0,2,0)`, identity rotation and scale `(1,1,1)` the local matrix is
the identity and the world matrix is the translation by `(0,2,0)`. -/
theorem PhysicsSystem_recomputes_matrices {σ : Type} (J : Joltc σ) (it : ecs_iter_t σ)
    (ctx : WorldContext σ) (physics : JoltcPhysics σ) (s : σ)
    (bi : JPH_BodyInterface) (js : JPH_JobSystem)
    (hctx : it.ctx = some ctx) (hph : ctx.physics = some physics)
    (hs : physics.physicsSystem = some s) (hbi : physics.bodyInterface = some bi)
    (hjs : physics.jobSystem = some js)
    (i : Nat) (t : Transform3D) (p : PhysicsBody) (hrow : it.rows[i]? = some (t, p)) :
    ∃ t2 : Transform3D, (PhysicsSystem J it).rows[i]? = some (t2, p) ∧
      t2.position = J.JPH_BodyInterface_GetCenterOfMassPosition bi
        (J.JPH_PhysicsSystem_Update s PHYSICS_STEP 1 js) p.body ∧
      t2.rotation = J.JPH_BodyInterface_GetRotation bi
        (J.JPH_PhysicsSystem_Update s PHYSICS_STEP 1 js) p.body ∧
      t2.scale = t.scale ∧
      t2.localMatrix = MatrixMultiply (MatrixScale t2.scale.x t2.scale.y t2.scale.z)
        (QuaternionToMatrix t2.rotation) ∧
      t2.worldMatrix = MatrixMultiply t2.localMatrix
        (MatrixTranslate t2.position.x t2.position.y t2.position.z) ∧
      (∀ v : Vector3, Vector3Transform v t2.worldMatrix =
        Vector3Add
          (Vector3Transform (Vector3Transform v (MatrixScale t2.scale.x t2.scale.y t2.scale.z))
            (QuaternionToMatrix t2.rotation))
          t2.position) ∧
      (t2.position = { x := 0, y := 2, z := 0 } → t2.rotation = QuaternionIdentity →
        t2.scale = { x := 1, y := 1, z := 1 } →
        t2.localMatrix = MatrixIdentity ∧ t2.worldMatrix = MatrixTranslate 0 2 0) := by
  obtain ⟨h1, h2, h3, h4⟩ :=
    syncRow_matrices J bi (J.JPH_PhysicsSystem_Update s PHYSICS_STEP 1 js) t p
  refine ⟨(syncRow J bi (J.JPH_PhysicsSystem_Update s PHYSICS_STEP 1 js) (t, p)).1,
    ?_, rfl, rfl, h1, ?_, h3, ?_, ?_⟩
  · rw [PhysicsSystem_row J it ctx physics s bi js hctx hph hs hbi hjs i (t, p) hrow]
    rfl
  · rw [h1]; exact h2
  · rw [h1]; exact h4
  · intro hp hr hsc
    have hl : (syncRow J bi (J.JPH_PhysicsSystem_Update s PHYSICS_STEP 1 js) (t, p)).1.localMatrix
        = MatrixIdentity := by
      rw [h2, hr, ← h1, hsc]
      simp [MatrixMultiply, MatrixScale, QuaternionToMatrix, QuaternionIdentity, MatrixIdentity]
    refine ⟨hl, ?_⟩
    rw [h3, hl, hp]
    simp [MatrixMultiply, MatrixTranslate, MatrixIdentity]

/-- Witness for C2: position `(0,2,0)`, identity rotation, scale `(1,1,1)`. -/
theorem PhysicsSystem_recomputes_matrices_witness :
    ∃ t2 : Transform3D,
      (PhysicsSystem tableJoltc
        { ctx := some (fullCtx engineB), delta_time := 0,
          rows := [(unitTransform, { body := 7 })] }).rows[0]? = some (t2, { body := 7 }) ∧
      t2.localMatrix = MatrixIdentity ∧ t2.worldMatrix = MatrixTranslate 0 2 0 := by
  obtain ⟨t2, h1, h2, h3, h4, _, _, _, h8⟩ := PhysicsSystem_recomputes_matrices tableJoltc
    { ctx := some (fullCtx engineB), delta_time := 0, rows := [(unitTransform, { body := 7 })] }
    (fullCtx engineB) _ engineB ⟨1⟩ ⟨2⟩ rfl rfl rfl rfl rfl 0 unitTransform { body := 7 } rfl
  have h := h8 (by rw [h2]; decide) (by rw [h3]; decide) (by rw [h4]; decide)
  exact ⟨t2, h1, h.1, h.2⟩

/-- C3: if the world context is absent, or its physics pointer is absent, or one
of `physicsSystem`, `bodyInterface`, `jobSystem` is absent, `PhysicsSystem` returns
the iterator as it received it: every `Transform3D` row is unchanged in every
field and the engine state is the one before the call. -/
theorem PhysicsSystem_noop_when_handle_absent {σ : Type} (J : Joltc σ) (it : ecs_iter_t σ)
    (h : it.ctx = none ∨ ∃ ctx, it.ctx = some ctx ∧
      (ctx.physics = none ∨ ∃ physics, ctx.physics = some physics ∧
        (physics.physicsSystem = none ∨ physics.bodyInterface = none ∨
          physics.jobSystem = none))) :
    PhysicsSystem J it = it ∧ (PhysicsSystem J it).rows = it.rows ∧
      engineOf (PhysicsSystem J it) = engineOf it := by
  have hg : guardPasses it = false := by
    unfold guardPasses
    rcases h with h | ⟨ctx, hctx, h⟩
    · simp [h]
    · rcases h with h | ⟨physics, hph, h⟩
      · simp [hctx, h]
      · rcases h with h | h | h <;> simp [hctx, hph, h]
  have he := PhysicsSystem_of_guard_false J it hg
  exact ⟨he, by rw [he], by rw [he]⟩

/-- Witness for C3: a context whose job system is absent, with one row. -/
theorem PhysicsSystem_noop_when_handle_absent_witness :
    PhysicsSystem tableJoltc
      { ctx := some { physics := some { physicsSystem := some engineA,
                                        bodyInterface := some ⟨1⟩, jobSystem := none },
                      camera := none },
        delta_time := 1, rows := [(unitTransform, { body := 7 })] } =
      { ctx := some { physics := some { physicsSystem := some engineA,
                                        bodyInterface := some ⟨1⟩, jobSystem := none },
                      camera := none },
        delta_time := 1, rows := [(unitTransform, { body := 7 })] } :=
  (PhysicsSystem_noop_when_handle_absent tableJoltc _
    (Or.inr ⟨_, rfl, Or.inr ⟨_, rfl, Or.inr (Or.inr rfl)⟩⟩)).1

/-- C4: a call of `PhysicsSystem` whose guard passes replaces the engine state by
the result of exactly one `JPH_PhysicsSystem_Update` with time `PHYSICS_STEP = 1/60`
and one collision step, whatever the iterator's delta time and rows (also with no
row); two consecutive calls apply two such updates, so that a clock which every
update advances by its time argument has advanced by `2/60` in total. -/
theorem PhysicsSystem_fixed_step {σ : Type} (J : Joltc σ) (it : ecs_iter_t σ)
    (ctx : WorldContext σ) (physics : JoltcPhysics σ) (s : σ)
    (bi : JPH_BodyInterface) (js : JPH_JobSystem)
    (hctx : it.ctx = some ctx) (hph : ctx.physics = some physics)
    (hs : physics.physicsSystem = some s) (hbi : physics.bodyInterface = some bi)
    (hjs : physics.jobSystem = some js) :
    PHYSICS_STEP = 1 / 60 ∧
    (∀ (dt : Scalar) (rows : List (Transform3D × PhysicsBody)),
      engineOf (PhysicsSystem J { it with delta_time := dt, rows := rows }) =
        some (J.JPH_PhysicsSystem_Update s (1 / 60) 1 js)) ∧
    engineOf (PhysicsSystem J { it with rows := [] }) =
      some (J.JPH_PhysicsSystem_Update s (1 / 60) 1 js) ∧
    engineOf (PhysicsSystem J (PhysicsSystem J it)) =
      some (J.JPH_PhysicsSystem_Update (J.JPH_PhysicsSystem_Update s (1 / 60) 1 js) (1 / 60) 1 js) ∧
    ∀ clock : σ → Scalar,
      (∀ (e : σ) (dt : Scalar) (n : Nat) (j : JPH_JobSystem),
        clock (J.JPH_PhysicsSystem_Update e dt n j) = clock e + dt) →
      (engineOf (PhysicsSystem J it)).map clock = some (clock s + 1 / 60) ∧
      (engineOf (PhysicsSystem J (PhysicsSystem J it))).map clock = some (clock s + 2 / 60) := by
  have hone : ∀ (dt : Scalar) (rows : List (Transform3D × PhysicsBody)),
      engineOf (PhysicsSystem J { it with delta_time := dt, rows := rows }) =
        some (J.JPH_PhysicsSystem_Update s (1 / 60) 1 js) := by
    intro dt rows
    rw [PhysicsSystem_of_present J { it with delta_time := dt, rows := rows } ctx physics s bi js
      hctx hph hs hbi hjs]
    rfl
  have htwo : engineOf (PhysicsSystem J (PhysicsSystem J it)) =
      some (J.JPH_PhysicsSystem_Update (J.JPH_PhysicsSystem_Update s (1 / 60) 1 js) (1 / 60) 1 js) := by
    rw [PhysicsSystem_of_present J it ctx physics s bi js hctx hph hs hbi hjs]
    rw [PhysicsSystem_of_present J _ _
      { physics with physicsSystem := some (J.JPH_PhysicsSystem_Update s PHYSICS_STEP 1 js) }
      (J.JPH_PhysicsSystem_Update s PHYSICS_STEP 1 js) bi js rfl rfl rfl hbi hjs]
    rfl
  refine ⟨rfl, hone, hone it.delta_time [], htwo, ?_⟩
  intro clock hclock
  refine ⟨?_, ?_⟩
  · have := hone it.delta_time it.rows
    rw [this]
    simp [hclock]
  · rw [htwo]
    simp only [Option.map_some', hclock, Option.some.injEq]
    ring

/-- Witness for C4: two calls on the test engine, whose clock starts at `0`. -/
theorem PhysicsSystem_fixed_step_witness :
    (engineOf (PhysicsSystem tableJoltc (PhysicsSystem tableJoltc
      { ctx := some (fullCtx engineA), delta_time := 7,
        rows := [(unitTransform, { body := 7 })] }))).map TableEngine.clock = some (0 + 2 / 60) :=
  ((PhysicsSystem_fixed_step tableJoltc
    { ctx := some (fullCtx engineA), delta_time := 7, rows := [(unitTransform, { body := 7 })] }
    (fullCtx engineA) _ engineA ⟨1⟩ ⟨2⟩ rfl rfl rfl rfl rfl).2.2.2.2
      TableEngine.clock (fun _ _ _ _ => rfl)).2

/-- Every dependency declared by `main` goes down in rank. -/
theorem phaseRank_lt_of_DependsOn (p q : Phase) (h : DependsOn p q) :
    phaseRank q < phaseRank p := by
  unfold DependsOn phaseDependencies at h
  simp only [List.mem_cons, Prod.mk.injEq, List.mem_nil_iff, or_false] at h
  rcases h with ⟨rfl, rfl⟩ | ⟨rfl, rfl⟩ | ⟨rfl, rfl⟩ | ⟨rfl, rfl⟩ | ⟨rfl, rfl⟩ | ⟨rfl, rfl⟩ |
    ⟨rfl, rfl⟩ <;> decide

/-- Every chain of dependencies declared by `main` goes down in rank. -/
theorem phaseRank_lt_of_TransGen (p q : Phase) (h : Relation.TransGen DependsOn p q) :
    phaseRank q < phaseRank p := by
  induction h with
  | single h => exact phaseRank_lt_of_DependsOn _ _ h
  | tail _ h ih => exact lt_trans (phaseRank_lt_of_DependsOn _ _ h) ih

/-- An order of the seven custom phases that respects the declared dependencies
is the chain. -/
theorem order_eq_chain (order : List Phase) (hperm : order.Perm customPhases)
    (h : RespectsDependencies order) : order = customPhases := by
  have hlen : order.length = 7 := hperm.length_eq
  have hmem : ∀ p ∈ customPhases, p ∈ order := fun p hp => hperm.symm.subset hp
  have h1 := h (Phase.BeginRenderPhase, Phase.LogicUpdatePhase) (by decide) (by decide)
  have h2 := h (Phase.BeginCameraPhase, Phase.BeginRenderPhase) (by decide) (by decide)
  have h3 := h (Phase.UpdateCameraPhase, Phase.BeginCameraPhase) (by decide) (by decide)
  have h4 := h (Phase.EndCameraPhase, Phase.UpdateCameraPhase) (by decide) (by decide)
  have h5 := h (Phase.RenderPhase, Phase.EndCameraPhase) (by decide) (by decide)
  have h6 := h (Phase.EndRenderPhase, Phase.RenderPhase) (by decide) (by decide)
  have h7 : order.indexOf Phase.EndRenderPhase < order.length :=
    List.indexOf_lt_length.2 (hmem _ (by decide))
  simp only at h1 h2 h3 h4 h5 h6
  have e0 : order.indexOf Phase.LogicUpdatePhase = 0 := by omega
  have e1 : order.indexOf Phase.BeginRenderPhase = 1 := by omega
  have e2 : order.indexOf Phase.BeginCameraPhase = 2 := by omega
  have e3 : order.indexOf Phase.UpdateCameraPhase = 3 := by omega
  have e4 : order.indexOf Phase.EndCameraPhase = 4 := by omega
  have e5 : order.indexOf Phase.RenderPhase = 5 := by omega
  have e6 : order.indexOf Phase.EndRenderPhase = 6 := by omega
  have g0 := List.indexOf_get? (hmem Phase.LogicUpdatePhase (by decide))
  have g1 := List.indexOf_get? (hmem Phase.BeginRenderPhase (by decide))
  have g2 := List.indexOf_get? (hmem Phase.BeginCameraPhase (by decide))
  have g3 := List.indexOf_get? (hmem Phase.UpdateCameraPhase (by decide))
  have g4 := List.indexOf_get? (hmem Phase.EndCameraPhase (by decide))
  have g5 := List.indexOf_get? (hmem Phase.RenderPhase (by decide))
  have g6 := List.indexOf_get? (hmem Phase.EndRenderPhase (by decide))
  rw [e0] at g0
  rw [e1] at g1
  rw [e2] at g2
  rw [e3] at g3
  rw [e4] at g4
  rw [e5] at g5
  rw [e6] at g6
  match order, hlen, g0, g1, g2, g3, g4, g5, g6 with
  | [a, b, c, d, e, f, g], _, g0, g1, g2, g3, g4, g5, g6 =>
    simp at g0 g1 g2 g3 g4 g5 g6
    subst g0 g1 g2 g3 g4 g5 g6
    rfl

/-- C5: the dependencies that `main` declares among the phases are acyclic; an
order of the seven custom phases puts every phase after its predecessor exactly
when it is the chain LogicUpdate, BeginRender, BeginCamera, UpdateCamera,
EndCamera, Render, EndRender; the schedule of that order, registration order
within a phase, holds each of the eight registered systems once, in the sequence
LogicUpdateSystem, PhysicsSystem, RenderBeginSystem, BeginCameraSystem,
CameraRenderSystem, EndCameraSystem, RenderSystem, RenderEndSystem; and running
a frame (`ecs_progress`) on any world invokes exactly these eight callbacks, each
once and in that sequence: the record of invocations grows by that sequence, and
the world after the frame is the world that the eight callbacks of `main.c`
produce when they are applied one after the other in that order. -/
theorem phase_chain_and_frame_sequence :
    (∀ p : Phase, ¬ Relation.TransGen DependsOn p p) ∧
    (∀ order : List Phase, order.Perm customPhases →
      (RespectsDependencies order ↔
        order = [Phase.LogicUpdatePhase, Phase.BeginRenderPhase, Phase.BeginCameraPhase,
          Phase.UpdateCameraPhase, Phase.EndCameraPhase, Phase.RenderPhase,
          Phase.EndRenderPhase])) ∧
    frameSchedule
        [Phase.LogicUpdatePhase, Phase.BeginRenderPhase, Phase.BeginCameraPhase,
          Phase.UpdateCameraPhase, Phase.EndCameraPhase, Phase.RenderPhase,
          Phase.EndRenderPhase] registeredSystems =
      [SystemId.LogicUpdateSystem, SystemId.PhysicsSystem, SystemId.RenderBeginSystem,
        SystemId.BeginCameraSystem, SystemId.CameraRenderSystem, SystemId.EndCameraSystem,
        SystemId.RenderSystem, SystemId.RenderEndSystem] ∧
    (∀ s : SystemId, s ∈ registeredSystems.map (fun r => r.1)) ∧
    (∀ s : SystemId,
      (frameSchedule
        [Phase.LogicUpdatePhase, Phase.BeginRenderPhase, Phase.BeginCameraPhase,
          Phase.UpdateCameraPhase, Phase.EndCameraPhase, Phase.RenderPhase,
          Phase.EndRenderPhase] registeredSystems).count s = 1) ∧
    (∀ (σ : Type) (J : Joltc σ) (delta_time : Scalar) (w : World σ),
      (ecs_progress J delta_time w).invoked =
        w.invoked ++
          [SystemId.LogicUpdateSystem, SystemId.PhysicsSystem, SystemId.RenderBeginSystem,
            SystemId.BeginCameraSystem, SystemId.CameraRenderSystem, SystemId.EndCameraSystem,
            SystemId.RenderSystem, SystemId.RenderEndSystem] ∧
      (∀ s : SystemId, (ecs_progress J delta_time w).invoked.count s = w.invoked.count s + 1) ∧
      (ecs_progress J delta_time w).ctx =
        (PhysicsSystem J
          { ctx := w.ctx, delta_time := delta_time, rows := physicsRows w.entities }).ctx ∧
      (ecs_progress J delta_time w).entities =
        storeCameraRows
          (storePhysicsRows w.entities
            (PhysicsSystem J
              { ctx := w.ctx, delta_time := delta_time, rows := physicsRows w.entities }).rows)
          (CameraRenderSystem
            (cameraRows (storePhysicsRows w.entities
              (PhysicsSystem J
                { ctx := w.ctx, delta_time := delta_time,
                  rows := physicsRows w.entities }).rows))
            (BeginCameraSystem
              (PhysicsSystem J
                { ctx := w.ctx, delta_time := delta_time, rows := physicsRows w.entities }).ctx
              (RenderBeginSystem (LogicUpdateSystem w.calls)))).1 ∧
      (ecs_progress J delta_time w).calls =
        RenderEndSystem (RenderSystem (EndCameraSystem
          (PhysicsSystem J
            { ctx := w.ctx, delta_time := delta_time, rows := physicsRows w.entities }).ctx
          (CameraRenderSystem
            (cameraRows (storePhysicsRows w.entities
              (PhysicsSystem J
                { ctx := w.ctx, delta_time := delta_time,
                  rows := physicsRows w.entities }).rows))
            (BeginCameraSystem
              (PhysicsSystem J
                { ctx := w.ctx, delta_time := delta_time, rows := physicsRows w.entities }).ctx
              (RenderBeginSystem (LogicUpdateSystem w.calls)))).2))) := by
  have hsched : frameSchedule customPhases registeredSystems =
      [SystemId.LogicUpdateSystem, SystemId.PhysicsSystem, SystemId.RenderBeginSystem,
        SystemId.BeginCameraSystem, SystemId.CameraRenderSystem, SystemId.EndCameraSystem,
        SystemId.RenderSystem, SystemId.RenderEndSystem] := by decide
  refine ⟨?_, ?_, by decide, ?_, ?_, ?_⟩
  rotate_left 4
  · intro σ J delta_time w
    have hinv : (ecs_progress J delta_time w).invoked =
        w.invoked ++
          [SystemId.LogicUpdateSystem, SystemId.PhysicsSystem, SystemId.RenderBeginSystem,
            SystemId.BeginCameraSystem, SystemId.CameraRenderSystem, SystemId.EndCameraSystem,
            SystemId.RenderSystem, SystemId.RenderEndSystem] := by
      simp only [ecs_progress, hsched, List.foldl, runSystem, List.append_assoc,
        List.cons_append, List.nil_append]
    refine ⟨hinv, ?_, ?_, ?_, ?_⟩
    · intro s
      rw [hinv, List.count_append]
      cases s <;> rfl
    · simp only [ecs_progress, hsched, List.foldl, runSystem]
    · simp only [ecs_progress, hsched, List.foldl, runSystem]
    · simp only [ecs_progress, hsched, List.foldl, runSystem]
  · intro p h
    exact lt_irrefl _ (phaseRank_lt_of_TransGen p p h)
  · intro order hperm
    constructor
    · intro h
      exact order_eq_chain order hperm h
    · intro h
      subst h
      intro pq hpq hc
      unfold phaseDependencies at hpq
      simp only [List.mem_cons, List.mem_nil_iff, or_false] at hpq
      rcases hpq with rfl | rfl | rfl | rfl | rfl | rfl | rfl <;> revert hc <;> decide
  · intro s
    cases s <;> decide
  · intro s
    cases s <;> decide

/-- Witness for C5: the chain itself respects the declared dependencies. -/
theorem phase_chain_and_frame_sequence_witness :
    customPhases.Perm customPhases ∧ RespectsDependencies customPhases :=
  ⟨List.Perm.refl _, (phase_chain_and_frame_sequence.2.1 customPhases (List.Perm.refl _)).2 rfl⟩

/-- C6, counterexample: a frame on a world without a context object.
`BeginCameraSystem` and `EndCameraSystem` return early by their guard,
`CameraRenderSystem` still calls `DrawModelWires` and `DrawGrid`, and both draw
calls are issued in state `FrameBegun`, with no `BeginMode3D` before them in the
frame.  The same holds when only the camera is absent. -/
theorem CameraRenderSystem_draws_outside_camera_block :
    (ecs_progress tableJoltc (1 / 60) worldNoCtx).calls =
      [RaylibCall.BeginDrawing, RaylibCall.ClearBackground Color.RAYWHITE,
        RaylibCall.DrawModelWires { transform := MatrixIdentity } { x := 0, y := 0, z := 0 } 1
          Color.GRAY,
        RaylibCall.DrawGrid 10 1, RaylibCall.DrawFPS 10 10, RaylibCall.EndDrawing] ∧
    drawStates RenderState.Idle (ecs_progress tableJoltc (1 / 60) worldNoCtx).calls =
      [RenderState.FrameBegun, RenderState.FrameBegun] ∧
    drawStates RenderState.Idle (ecs_progress tableJoltc (1 / 60) worldNoCamera).calls =
      [RenderState.FrameBegun, RenderState.FrameBegun] := by
  refine ⟨?_, ?_, ?_⟩ <;> decide

/-- The local matrix written by the loop body for the floor transform is never the
identity matrix that the floor transform is created with, whatever rotation the
engine reports. -/
theorem syncRow_floor_localMatrix_ne {σ : Type} (J : Joltc σ) (bi : JPH_BodyInterface) (s : σ)
    (p : PhysicsBody) : (syncRow J bi s (floorTransform, p)).1.localMatrix ≠ MatrixIdentity := by
  intro h
  have h5 := congrArg Matrix.m5 h
  simp only [syncRow, floorTransform, MatrixMultiply, MatrixScale, QuaternionToMatrix,
    MatrixIdentity] at h5
  nlinarith [mul_self_nonneg (J.JPH_BodyInterface_GetRotation bi s p.body).x,
    mul_self_nonneg (J.JPH_BodyInterface_GetRotation bi s p.body).z]

/-- C7, counterexample: the floor transform of `main` bound to body 7, in an engine
that holds no body.  Whatever the joltc calls do, `PhysicsSystem` does not leave
the row as it was. -/
theorem PhysicsSystem_destroyed_body_not_noop :
    ¬ ∃ J : Joltc TableEngine,
      (PhysicsSystem J iterDestroyedBody).rows = iterDestroyedBody.rows := by
  rintro ⟨J, h⟩
  rw [PhysicsSystem_of_present J iterDestroyedBody (fullCtx { clock := 0, bodies := [] }) _
    { clock := 0, bodies := [] } ⟨1⟩ ⟨2⟩ rfl rfl rfl rfl rfl] at h
  simp only [iterDestroyedBody, List.map_cons, List.map_nil, List.cons.injEq, and_true] at h
  have h1 := congrArg (fun r => r.1.localMatrix) h
  exact syncRow_floor_localMatrix_ne J _ _ _ h1

/-- C7, amended: `PhysicsSystem` makes no test on the body of a row.  When the
guard passes, every row `i`, whatever the engine holds for its body id, ends as:
position and rotation the values that the two getters return for that id after
the step, the scale as before, and both matrices recomputed from these; it is
equal to the row before the call only if those values are the stored ones. -/
theorem PhysicsSystem_overwrites_every_row {σ : Type} (J : Joltc σ) (it : ecs_iter_t σ)
    (ctx : WorldContext σ) (physics : JoltcPhysics σ) (s : σ)
    (bi : JPH_BodyInterface) (js : JPH_JobSystem)
    (hctx : it.ctx = some ctx) (hph : ctx.physics = some physics)
    (hs : physics.physicsSystem = some s) (hbi : physics.bodyInterface = some bi)
    (hjs : physics.jobSystem = some js)
    (i : Nat) (t : Transform3D) (p : PhysicsBody) (hrow : it.rows[i]? = some (t, p)) :
    (PhysicsSystem J it).rows.length = it.rows.length ∧
    (PhysicsSystem J it).rows[i]? = some
      ({ position := J.JPH_BodyInterface_GetCenterOfMassPosition bi
           (J.JPH_PhysicsSystem_Update s PHYSICS_STEP 1 js) p.body,
         rotation := J.JPH_BodyInterface_GetRotation bi
           (J.JPH_PhysicsSystem_Update s PHYSICS_STEP 1 js) p.body,
         scale := t.scale,
         localMatrix := MatrixMultiply (MatrixScale t.scale.x t.scale.y t.scale.z)
           (QuaternionToMatrix (J.JPH_BodyInterface_GetRotation bi
             (J.JPH_PhysicsSystem_Update s PHYSICS_STEP 1 js) p.body)),
         worldMatrix := MatrixMultiply
           (MatrixMultiply (MatrixScale t.scale.x t.scale.y t.scale.z)
             (QuaternionToMatrix (J.JPH_BodyInterface_GetRotation bi
               (J.JPH_PhysicsSystem_Update s PHYSICS_STEP 1 js) p.body)))
           (MatrixTranslate
             (J.JPH_BodyInterface_GetCenterOfMassPosition bi
               (J.JPH_PhysicsSystem_Update s PHYSICS_STEP 1 js) p.body).x
             (J.JPH_BodyInterface_GetCenterOfMassPosition bi
               (J.JPH_PhysicsSystem_Update s PHYSICS_STEP 1 js) p.body).y
             (J.JPH_BodyInterface_GetCenterOfMassPosition bi
               (J.JPH_PhysicsSystem_Update s PHYSICS_STEP 1 js) p.body).z) }, p) ∧
    ((PhysicsSystem J it).rows[i]? = it.rows[i]? →
      t.position = J.JPH_BodyInterface_GetCenterOfMassPosition bi
        (J.JPH_PhysicsSystem_Update s PHYSICS_STEP 1 js) p.body ∧
      t.rotation = J.JPH_BodyInterface_GetRotation bi
        (J.JPH_PhysicsSystem_Update s PHYSICS_STEP 1 js) p.body ∧
      t.localMatrix = MatrixMultiply (MatrixScale t.scale.x t.scale.y t.scale.z)
        (QuaternionToMatrix t.rotation)) := by
  have hr := PhysicsSystem_row J it ctx physics s bi js hctx hph hs hbi hjs i (t, p) hrow
  refine ⟨?_, ?_, ?_⟩
  · rw [PhysicsSystem_of_present J it ctx physics s bi js hctx hph hs hbi hjs]
    simp
  · rw [hr]
    rfl
  · intro he
    rw [hr, hrow] at he
    have h1 : (syncRow J bi (J.JPH_PhysicsSystem_Update s PHYSICS_STEP 1 js) (t, p)).1 = t := by
      have := Option.some.inj he
      rw [this]
    have hp : t.position = J.JPH_BodyInterface_GetCenterOfMassPosition bi
        (J.JPH_PhysicsSystem_Update s PHYSICS_STEP 1 js) p.body := by
      conv_lhs => rw [← h1]
      rfl
    have hq : t.rotation = J.JPH_BodyInterface_GetRotation bi
        (J.JPH_PhysicsSystem_Update s PHYSICS_STEP 1 js) p.body := by
      conv_lhs => rw [← h1]
      rfl
    refine ⟨hp, hq, ?_⟩
    conv_lhs => rw [← h1]
    rw [hq]
    rfl

/-- Witness for C7: the floor transform bound to a body the test engine does not
hold; the row is overwritten with the pose the engine answers for that id. -/
theorem PhysicsSystem_overwrites_every_row_witness :
    (PhysicsSystem tableJoltc iterDestroyedBody).rows[0]? = some
      ({ position := { x := 0, y := 0, z := 0 },
         rotation := { x := 0, y := 0, z := 0, w := 1 },
         scale := { x := 20, y := 1 / 2, z := 20 },
         localMatrix := MatrixScale 20 (1 / 2) 20,
         worldMatrix := MatrixScale 20 (1 / 2) 20 }, { body := 7 }) := by
  have h := (PhysicsSystem_overwrites_every_row tableJoltc iterDestroyedBody
    (fullCtx { clock := 0, bodies := [] }) _ { clock := 0, bodies := [] } ⟨1⟩ ⟨2⟩
    rfl rfl rfl rfl rfl 0 floorTransform { body := 7 } rfl).2.1
  rw [h]
  simp [tableJoltc, TableEngine.pose, floorTransform, MatrixMultiply, MatrixScale,
    QuaternionToMatrix, QuaternionIdentity, MatrixTranslate]

/-- The events of the loop of `main`: one `ecs_progress` for each frame. -/
theorem mainLoop_events {σ : Type} (J : Joltc σ) (env : MainEnv σ) (st : LoopState σ) :
    (mainLoop J env st).events =
      st.events ++ List.replicate env.frames MainEvent.ecs_progress := by
  have key : ∀ (ks : List Nat) (st : LoopState σ),
      (ks.foldl (mainLoopBody J env) st).events =
        st.events ++ List.replicate ks.length MainEvent.ecs_progress := by
    intro ks
    induction ks with
    | nil => intro st; simp
    | cons k ks ih =>
      intro st
      rw [List.foldl_cons, ih]
      have hb : (mainLoopBody J env st k).events = st.events ++ [MainEvent.ecs_progress] := by
        unfold mainLoopBody
        split <;> rfl
      rw [hb, List.length_cons, List.replicate_succ, List.append_assoc]
      rfl
  have h := key (List.range env.frames) st
  rw [List.length_range] at h
  exact h

/-- C8, counterexample: `JPH_Init` succeeds and `JPH_JobSystemThreadPool_Create`
returns null.  `main` prints that it proceeds without the job system, creates the
window, runs the two frames of the run and returns `0`. -/
theorem main_not_fatal_without_job_system :
    (main tableJoltc envNoJobSystem).map (fun r => (r.status, r.events)) =
      some (0,
        [MainEvent.printf "init jolt physics\n",
         MainEvent.printf "Failed to create job system, proceeding without it\n",
         MainEvent.printf "Gravity: (%.2f, %.2f, %.2f)\n",
         MainEvent.printf "Create floor\n",
         MainEvent.printf "Create cube\n",
         MainEvent.InitWindow,
         MainEvent.printf "Starting main loop\n",
         MainEvent.ecs_progress,
         MainEvent.ecs_progress,
         MainEvent.printf "clean up\n",
         MainEvent.CloseWindow,
         MainEvent.printf "finish\n"]) := by
  simp [main, envNoJobSystem, mainLoop_events]

/-- C8, amended: a failed `JPH_Init` is fatal: `main` prints
"Failed to initialize Jolt Physics" and returns `1`, with no window created and
no frame run.  A null job system is not fatal: when `JPH_Init` succeeded and the
physics system was created, `main` prints "Failed to create job system,
proceeding without it", creates the window, runs every frame of the loop and
returns `0`. -/
theorem main_fatal_only_when_JPH_Init_fails {σ : Type} (J : Joltc σ) (env : MainEnv σ) :
    (env.JPH_Init = false →
      (main J env).map (fun r => (r.status, r.events, r.world.isSome)) =
        some (1,
          [MainEvent.printf "init jolt physics\n",
           MainEvent.printf "Failed to initialize Jolt Physics\n"],
          false)) ∧
    (env.JPH_Init = true → env.JPH_JobSystemThreadPool_Create = none →
      ∀ s : σ, env.JPH_PhysicsSystem_Create = some s →
        (main J env).map (fun r => (r.status, r.events)) =
          some (0,
            [MainEvent.printf "init jolt physics\n",
             MainEvent.printf "Failed to create job system, proceeding without it\n",
             MainEvent.printf "Gravity: (%.2f, %.2f, %.2f)\n",
             MainEvent.printf "Create floor\n",
             MainEvent.printf "Create cube\n",
             MainEvent.InitWindow,
             MainEvent.printf "Starting main loop\n"] ++
            List.replicate env.frames MainEvent.ecs_progress ++
            [MainEvent.printf "clean up\n", MainEvent.CloseWindow,
             MainEvent.printf "finish\n"])) := by
  refine ⟨?_, ?_⟩
  · intro h
    simp [main, h]
  · intro h hjob s hs
    simp [main, h, hjob, hs, mainLoop_events]

/-- Witness for C8: a run in which `JPH_Init` fails, and a run in which only the
job system could not be created. -/
theorem main_fatal_only_when_JPH_Init_fails_witness :
    (main tableJoltc envInitFails).map (fun r => (r.status, r.events, r.world.isSome)) =
        some (1,
          [MainEvent.printf "init jolt physics\n",
           MainEvent.printf "Failed to initialize Jolt Physics\n"],
          false) ∧
    ((main tableJoltc envNoJobSystem).map (fun r => r.status) = some 0 ∧
      (main tableJoltc envNoJobSystem).map (fun r => r.events.count MainEvent.ecs_progress) =
        some 2) := by
  refine ⟨(main_fatal_only_when_JPH_Init_fails tableJoltc envInitFails).1 rfl, ?_⟩
  have h := (main_fatal_only_when_JPH_Init_fails tableJoltc envNoJobSystem).2 rfl rfl _ rfl
  cases hm : main tableJoltc envNoJobSystem with
  | none => rw [hm] at h; simp at h
  | some r =>
    rw [hm] at h
    simp only [Option.map_some', Option.some.injEq, Prod.mk.injEq] at h
    simp only [Option.map_some', Option.some.injEq]
    refine ⟨h.1, ?_⟩
    rw [h.2]
    decide

/-- The square norm of the drawn rotation is zero exactly when the four results
of `rand()` are multiples of 360. -/
theorem quaternionNormSq_randomRotation_eq_zero_iff (r1 r2 r3 r4 : Nat) :
    quaternionNormSq (randomRotation r1 r2 r3 r4) = 0 ↔
      r1 % 360 = 0 ∧ r2 % 360 = 0 ∧ r3 % 360 = 0 ∧ r4 % 360 = 0 := by
  unfold quaternionNormSq randomRotation
  constructor
  · intro h
    have h1 := mul_self_nonneg (((r1 % 360 : Nat) : Scalar) / 360)
    have h2 := mul_self_nonneg (((r2 % 360 : Nat) : Scalar) / 360)
    have h3 := mul_self_nonneg (((r3 % 360 : Nat) : Scalar) / 360)
    have h4 := mul_self_nonneg (((r4 % 360 : Nat) : Scalar) / 360)
    simp only at h
    have e1 : ((r1 % 360 : Nat) : Scalar) / 360 * (((r1 % 360 : Nat) : Scalar) / 360) = 0 := by
      linarith
    have e2 : ((r2 % 360 : Nat) : Scalar) / 360 * (((r2 % 360 : Nat) : Scalar) / 360) = 0 := by
      linarith
    have e3 : ((r3 % 360 : Nat) : Scalar) / 360 * (((r3 % 360 : Nat) : Scalar) / 360) = 0 := by
      linarith
    have e4 : ((r4 % 360 : Nat) : Scalar) / 360 * (((r4 % 360 : Nat) : Scalar) / 360) = 0 := by
      linarith
    simp only [mul_self_eq_zero, div_eq_zero_iff, Nat.cast_eq_zero] at e1 e2 e3 e4
    norm_num at e1 e2 e3 e4
    exact ⟨e1, e2, e3, e4⟩
  · rintro ⟨h1, h2, h3, h4⟩
    simp [h1, h2, h3, h4]

/-- When the square norm is not zero and `norm` is a square root of it, line 475
produces a quaternion of unit norm. -/
theorem normalizeRotation_unit (norm : Scalar) (q : Quaternion)
    (hnorm : norm * norm = quaternionNormSq q) (hq : quaternionNormSq q ≠ 0) :
    ∃ q2 : Quaternion, normalizeRotation norm q = some q2 ∧ quaternionNormSq q2 = 1 := by
  have hn : norm ≠ 0 := by
    intro h
    rw [h] at hnorm
    simp at hnorm
    exact hq hnorm.symm
  refine ⟨{ x := q.x / norm, y := q.y / norm, z := q.z / norm, w := q.w / norm },
    by simp [normalizeRotation, hn], ?_⟩
  unfold quaternionNormSq at hnorm ⊢
  simp only
  field_simp
  linarith

/-- C10 at the results `0, 360, 720, ...` of `rand()`: the four components of the
drawn rotation are zero, the square norm is zero, and for a `sqrt` with
`sqrt 0 = 0` the divisions of line 475 are divisions by zero: what is handed to
`JPH_BodyInterface_SetRotation` is not a quaternion (`none`). -/
theorem resetCube_divides_by_zero {σ : Type} (J : Joltc σ) (bodyInterface : JPH_BodyInterface)
    (cubeId : JPH_BodyID) (sqrt : Scalar → Scalar) (s : σ) (hsqrt : sqrt 0 = 0) :
    randomRotation 1080 1440 1800 2160 = { x := 0, y := 0, z := 0, w := 0 } ∧
    quaternionNormSq (randomRotation 1080 1440 1800 2160) = 0 ∧
    normalizeRotation (sqrt (quaternionNormSq (randomRotation 1080 1440 1800 2160)))
      (randomRotation 1080 1440 1800 2160) = none ∧
    resetCube J bodyInterface cubeId sqrt (fun n => 360 * n) 0 s =
      J.JPH_BodyInterface_SetLinearVelocity bodyInterface
        (J.JPH_BodyInterface_SetRotation bodyInterface
          (J.JPH_BodyInterface_SetPosition bodyInterface s cubeId { x := -5, y := 5, z := -5 })
          cubeId none)
        cubeId { x := 0, y := 0, z := 0 } := by
  have hr : randomRotation 1080 1440 1800 2160 = { x := 0, y := 0, z := 0, w := 0 } := by
    simp [randomRotation]
  have hn : quaternionNormSq (randomRotation 1080 1440 1800 2160) = 0 := by
    rw [hr]; simp [quaternionNormSq]
  have hz : normalizeRotation (sqrt (quaternionNormSq (randomRotation 1080 1440 1800 2160)))
      (randomRotation 1080 1440 1800 2160) = none := by
    rw [hn, hsqrt]; simp [normalizeRotation]
  refine ⟨hr, hn, hz, ?_⟩
  have hp : randomPosition 0 360 720 = { x := -5, y := 5, z := -5 } := by
    simp [randomPosition]
  simp only [resetCube, Nat.mul_zero, Nat.zero_add]
  norm_num only [hp, hz]

/-- Witness for C10: the test engine, with the square root `ratSqrt`. -/
theorem resetCube_divides_by_zero_witness :
    ratSqrt 0 = 0 ∧
    resetCube tableJoltc ⟨1⟩ 2 ratSqrt (fun n => 360 * n) 0 engineA =
      tableJoltc.JPH_BodyInterface_SetLinearVelocity ⟨1⟩
        (tableJoltc.JPH_BodyInterface_SetRotation ⟨1⟩
          (tableJoltc.JPH_BodyInterface_SetPosition ⟨1⟩ engineA 2 { x := -5, y := 5, z := -5 })
          2 none)
        2 { x := 0, y := 0, z := 0 } :=
  ⟨by simp [ratSqrt],
    (resetCube_divides_by_zero tableJoltc ⟨1⟩ 2 ratSqrt engineA (by simp [ratSqrt])).2.2.2⟩

/-- Appending to a list does not lower the index of an element. -/
theorem indexOf_le_indexOf_append (a : Nat) (l l2 : List Nat) :
    l.indexOf a ≤ (l ++ l2).indexOf a := by
  by_cases h : a ∈ l
  · rw [List.indexOf_append_of_mem h]
  · rw [List.indexOf_append_of_not_mem h, List.indexOf_eq_length.2 h]
    exact Nat.le_add_right _ _

/-- The invariant holds when the loop starts. -/
theorem ResolveInv_init (decls : List PhaseDecl) : ResolveInv decls decls [] :=
  ⟨by simp, fun _ h => h, fun _ h => Or.inl h⟩

/-- One round of the loop keeps the invariant. -/
theorem ResolveInv_step (decls pending : List PhaseDecl) (done : List Nat)
    (hnodup : (decls.map (fun d => d.id)).Nodup) (hinv : ResolveInv decls pending done)
    (d : PhaseDecl) (hd : d ∈ pending) (hready : d.ready done = true) :
    ResolveInv decls (pending.erase d) (done ++ [d.id]) := by
  obtain ⟨hperm, hsub, hdone⟩ := hinv
  have hp : (pending.map (fun d => d.id)).Perm (d.id :: (pending.erase d).map (fun d => d.id)) :=
    (List.perm_cons_erase hd).map _
  have hnd : (done ++ pending.map (fun d => d.id)).Nodup := hperm.nodup_iff.2 hnodup
  have hnotin : d.id ∉ done := by
    intro h
    exact (List.disjoint_of_nodup_append hnd) h (List.mem_map_of_mem _ hd)
  have hall : ∀ q ∈ d.dependsOn, q ∈ done := by
    intro q hq
    have := List.all_eq_true.1 hready q hq
    simpa using this
  refine ⟨?_, ?_, ?_⟩
  · rw [List.append_assoc]
    exact (List.Perm.append_left done hp.symm).trans hperm
  · intro x hx
    exact hsub x (List.mem_of_mem_erase hx)
  · intro x hx
    rcases hdone x hx with hpend | hplaced
    · by_cases hxd : x = d
      · right
        subst hxd
        intro q hq
        have hqd := hall q hq
        refine ⟨List.mem_append_left _ hqd, ?_⟩
        rw [List.indexOf_append_of_mem hqd, List.indexOf_append_of_not_mem hnotin]
        have := List.indexOf_lt_length.2 hqd
        omega
      · left
        exact (List.mem_erase_of_ne hxd).2 hpend
    · right
      intro q hq
      obtain ⟨hq1, hq2⟩ := hplaced q hq
      refine ⟨List.mem_append_left _ hq1, ?_⟩
      rw [List.indexOf_append_of_mem hq1]
      exact lt_of_lt_of_le hq2 (indexOf_le_indexOf_append _ _ _)

/-- When the loop returns an order, the invariant holds for it with nothing
pending. -/
theorem resolveLoop_sound (decls : List PhaseDecl)
    (hnodup : (decls.map (fun d => d.id)).Nodup) :
    ∀ (fuel : Nat) (pending : List PhaseDecl) (done order : List Nat),
      ResolveInv decls pending done → resolveLoop fuel pending done = some order →
      ResolveInv decls [] order := by
  intro fuel
  induction fuel with
  | zero =>
    intro pending done order hinv h
    cases pending with
    | nil =>
      simp only [resolveLoop, Option.some.injEq] at h
      subst h
      exact hinv
    | cons d0 ds => simp [resolveLoop] at h
  | succ fuel ih =>
    intro pending done order hinv h
    cases pending with
    | nil =>
      simp only [resolveLoop, Option.some.injEq] at h
      subst h
      exact hinv
    | cons d0 ds =>
      simp only [resolveLoop] at h
      cases hf : (d0 :: ds).find? (PhaseDecl.ready done) with
      | none => rw [hf] at h; simp at h
      | some d =>
        rw [hf] at h
        exact ih _ _ _ (ResolveInv_step decls (d0 :: ds) done hnodup hinv d
          (List.mem_of_find?_eq_some hf) (List.find?_some hf)) h

/-- In an order for which the invariant holds with nothing pending, every phase
comes strictly after each of its transitive predecessors. -/
theorem indexOf_lt_of_TransGen (decls : List PhaseDecl) (order : List Nat)
    (hinv : ResolveInv decls [] order) (p q : Nat)
    (h : Relation.TransGen (PhaseDep decls) p q) : order.indexOf q < order.indexOf p := by
  have hstep : ∀ a b, PhaseDep decls a b → order.indexOf b < order.indexOf a := by
    rintro a b ⟨d, hd, rfl, hb⟩
    rcases hinv.2.2 d hd with h | h
    · simp at h
    · exact (h b hb).2
  induction h with
  | single h => exact hstep _ _ h
  | tail _ h ih => exact lt_trans (hstep _ _ h) ih

/-- With acyclic registrations whose predecessors are all registered, some
pending phase is ready as long as one is pending. -/
theorem exists_ready (decls pending : List PhaseDecl) (done : List Nat)
    (hinv : ResolveInv decls pending done)
    (hclosed : ∀ d ∈ decls, ∀ q ∈ d.dependsOn, q ∈ decls.map (fun d => d.id))
    (hacyc : ∀ p, ¬ Relation.TransGen (PhaseDep decls) p p)
    (hne : pending ≠ []) : ∃ d ∈ pending, d.ready done = true := by
  obtain ⟨hperm, hsub, _⟩ := hinv
  let r : { d : PhaseDecl // d ∈ decls } → { d : PhaseDecl // d ∈ decls } → Prop :=
    fun a b => Relation.TransGen (PhaseDep decls) b.1.id a.1.id
  haveI : IsTrans { d : PhaseDecl // d ∈ decls } r := ⟨fun a b c hab hbc => hbc.trans hab⟩
  haveI : IsIrrefl { d : PhaseDecl // d ∈ decls } r := ⟨fun a h => hacyc _ h⟩
  have wf : WellFounded r := Finite.wellFounded_of_trans_of_irrefl r
  obtain ⟨d0, hd0⟩ := List.exists_mem_of_ne_nil pending hne
  obtain ⟨m, hm, hmin⟩ := wf.has_min { a | a.1 ∈ pending } ⟨⟨d0, hsub d0 hd0⟩, hd0⟩
  refine ⟨m.1, hm, ?_⟩
  unfold PhaseDecl.ready
  rw [List.all_eq_true]
  intro q hq
  simp only [decide_eq_true_eq]
  have hqreg : q ∈ done ++ pending.map (fun d => d.id) :=
    hperm.symm.subset (hclosed m.1 m.2 q hq)
  rcases List.mem_append.1 hqreg with h | h
  · exact h
  · exfalso
    obtain ⟨d2, hd2, hid⟩ := List.mem_map.1 h
    refine hmin ⟨d2, hsub d2 hd2⟩ hd2 ?_
    show Relation.TransGen (PhaseDep decls) m.1.id d2.id
    rw [hid]
    exact Relation.TransGen.single ⟨m.1, m.2, rfl, hq⟩

/-- With acyclic registrations whose predecessors are all registered, the loop
returns an order when it has at least one round for each pending phase. -/
theorem resolveLoop_complete (decls : List PhaseDecl)
    (hnodup : (decls.map (fun d => d.id)).Nodup)
    (hclosed : ∀ d ∈ decls, ∀ q ∈ d.dependsOn, q ∈ decls.map (fun d => d.id))
    (hacyc : ∀ p, ¬ Relation.TransGen (PhaseDep decls) p p) :
    ∀ (fuel : Nat) (pending : List PhaseDecl) (done : List Nat),
      ResolveInv decls pending done → pending.length ≤ fuel →
      ∃ order, resolveLoop fuel pending done = some order := by
  intro fuel
  induction fuel with
  | zero =>
    intro pending done _ hlen
    cases pending with
    | nil => exact ⟨done, rfl⟩
    | cons d0 ds => simp at hlen
  | succ fuel ih =>
    intro pending done hinv hlen
    cases pending with
    | nil => exact ⟨done, rfl⟩
    | cons d0 ds =>
      obtain ⟨d1, hd1, hr1⟩ := exists_ready decls (d0 :: ds) done hinv hclosed hacyc (by simp)
      cases hf : (d0 :: ds).find? (PhaseDecl.ready done) with
      | none =>
        exact absurd hr1 (by simpa using (List.find?_eq_none.1 hf) d1 hd1)
      | some d =>
        have hd := List.mem_of_find?_eq_some hf
        have hlen2 : ((d0 :: ds).erase d).length ≤ fuel := by
          rw [List.length_erase_of_mem hd]
          simp only [List.length_cons] at hlen ⊢
          omega
        obtain ⟨order, ho⟩ := ih _ _ (ResolveInv_step decls (d0 :: ds) done hnodup hinv d hd
          (List.find?_some hf)) hlen2
        refine ⟨order, ?_⟩
        simp only [resolveLoop, hf]
        exact ho

/-- C9: for registrations with distinct identifiers: when every declared
predecessor is registered and the depends-on relation has no cycle, the resolver
returns an order, which holds exactly the registered phases and places every
phase strictly after all its transitive predecessors (whatever the order of the
declarations); when the relation has a cycle, of any length, the resolver rejects
the registrations; and declaring C, then A, then B, with B after A and C after B,
yields A, B, C. -/
theorem resolvePhases_topological (decls : List PhaseDecl)
    (hnodup : (decls.map (fun d => d.id)).Nodup) :
    ((∀ d ∈ decls, ∀ q ∈ d.dependsOn, q ∈ decls.map (fun d => d.id)) →
      (∀ p, ¬ Relation.TransGen (PhaseDep decls) p p) →
      ∃ order, resolvePhases decls = some order ∧
        order.Perm (decls.map (fun d => d.id)) ∧
        ∀ p q, Relation.TransGen (PhaseDep decls) p q →
          order.indexOf q < order.indexOf p) ∧
    ((∃ p, Relation.TransGen (PhaseDep decls) p p) → resolvePhases decls = none) ∧
    resolvePhases declsCAB = some [1, 2, 3] := by
  refine ⟨?_, ?_, by decide⟩
  · intro hclosed hacyc
    obtain ⟨order, ho⟩ := resolveLoop_complete decls hnodup hclosed hacyc decls.length decls []
      (ResolveInv_init decls) (le_refl _)
    have hinv := resolveLoop_sound decls hnodup _ _ _ _ (ResolveInv_init decls) ho
    refine ⟨order, ho, ?_, fun p q h => indexOf_lt_of_TransGen decls order hinv p q h⟩
    simpa using hinv.1
  · rintro ⟨p, hp⟩
    cases ho : resolvePhases decls with
    | none => rfl
    | some order =>
      have hinv := resolveLoop_sound decls hnodup _ _ _ _ (ResolveInv_init decls) ho
      exact absurd (indexOf_lt_of_TransGen decls order hinv p p hp) (lt_irrefl _)

/-- Registrations that the resolver accepts have no cycle. -/
theorem acyclic_of_resolvePhases (decls : List PhaseDecl)
    (hnodup : (decls.map (fun d => d.id)).Nodup) (order : List Nat)
    (ho : resolvePhases decls = some order) :
    ∀ p, ¬ Relation.TransGen (PhaseDep decls) p p := by
  intro p hp
  have hinv := resolveLoop_sound decls hnodup _ _ _ _ (ResolveInv_init decls) ho
  exact absurd (indexOf_lt_of_TransGen decls order hinv p p hp) (lt_irrefl _)

/-- Witness for C9: the scenario C, A, B is resolved to A, B, C, and a cycle of
length two is rejected. -/
theorem resolvePhases_topological_witness :
    (∃ order, resolvePhases declsCAB = some order ∧
      order.Perm [3, 1, 2] ∧ order.indexOf 1 < order.indexOf 3) ∧
    resolvePhases declsCycle = none := by
  refine ⟨?_, ?_⟩
  · obtain ⟨order, h1, h2, h3⟩ := (resolvePhases_topological declsCAB (by decide)).1
      (by decide) (acyclic_of_resolvePhases declsCAB (by decide) [1, 2, 3] (by decide))
    refine ⟨order, h1, h2, h3 3 1 ?_⟩
    exact Relation.TransGen.tail
      (Relation.TransGen.single ⟨{ id := 3, dependsOn := [2] }, by decide, rfl, by decide⟩)
      ⟨{ id := 2, dependsOn := [1] }, by decide, rfl, by decide⟩
  · exact (resolvePhases_topological declsCycle (by decide)).2.1
      ⟨1, Relation.TransGen.tail
        (Relation.TransGen.single ⟨{ id := 1, dependsOn := [2] }, by decide, rfl, by decide⟩)
        ⟨{ id := 2, dependsOn := [1] }, by decide, rfl, by decide⟩⟩

/-- `PhysicsSystem` leaves the camera pointer of the context as it is. -/
theorem PhysicsSystem_camera {σ : Type} (J : Joltc σ) (it : ecs_iter_t σ) :
    (PhysicsSystem J it).ctx.bind (fun ctx => ctx.camera) =
      it.ctx.bind (fun ctx => ctx.camera) := by
  unfold PhysicsSystem
  cases hctx : it.ctx with
  | none => simp [hctx]
  | some ctx =>
    cases hph : ctx.physics with
    | none => simp [hctx, hph]
    | some physics =>
      cases hs : physics.physicsSystem <;> cases hbi : physics.bodyInterface <;>
        cases hjs : physics.jobSystem <;> simp [hctx, hph, hs, hbi, hjs]

/-- The body of the loop of `CameraRenderSystem` appends model draw calls only. -/
theorem cameraRenderRow_calls (acc : List CameraRow × List RaylibCall) (row : CameraRow) :
    ∃ ds : List RaylibCall, (cameraRenderRow acc row).2 = acc.2 ++ ds ∧
      ∀ c ∈ ds, c.isModelDraw = true := by
  unfold cameraRenderRow
  cases hm : row.m.model with
  | none => exact ⟨[], by simp, by simp⟩
  | some model =>
    refine ⟨[RaylibCall.DrawModelWires { model with transform := row.t.worldMatrix }
      { x := 0, y := 0, z := 0 } 1 _], rfl, ?_⟩
    intro c hc
    rw [List.mem_singleton] at hc
    subst hc
    rfl

/-- The loop of `CameraRenderSystem` appends model draw calls only. -/
theorem cameraRenderRow_foldl_calls (rows : List CameraRow) :
    ∀ acc : List CameraRow × List RaylibCall,
      ∃ ds : List RaylibCall, (rows.foldl cameraRenderRow acc).2 = acc.2 ++ ds ∧
        ∀ c ∈ ds, c.isModelDraw = true := by
  induction rows with
  | nil => intro acc; exact ⟨[], by simp, by simp⟩
  | cons row rows ih =>
    intro acc
    obtain ⟨ds, h1, h2⟩ := ih (cameraRenderRow acc row)
    obtain ⟨ds0, h3, h4⟩ := cameraRenderRow_calls acc row
    refine ⟨ds0 ++ ds, ?_, ?_⟩
    · rw [List.foldl_cons, h1, h3, List.append_assoc]
    · intro c hc
      rcases List.mem_append.1 hc with hc | hc
      · exact h4 c hc
      · exact h2 c hc

/-- Model draw calls do not move the render state, and each is issued in it. -/
theorem drawStates_append_draws (st : RenderState) (ds rest : List RaylibCall)
    (h : ∀ c ∈ ds, c.isModelDraw = true) :
    drawStates st (ds ++ rest) = List.replicate ds.length st ++ drawStates st rest := by
  induction ds with
  | nil => simp
  | cons c ds ih =>
    have hc : c.isModelDraw = true := h c (List.mem_cons_self _ _)
    have ih2 := ih (fun x hx => h x (List.mem_cons_of_mem _ hx))
    simp [drawStates, hc, ih2, List.replicate_succ]

/-- The raylib calls of a frame when the context and its camera are present: the
draw calls of `CameraRenderSystem` stand between `BeginMode3D` and `EndMode3D`. -/
theorem ecs_progress_calls_when_camera_present {σ : Type} (J : Joltc σ)
    (delta_time : Scalar) (w : World σ) (ctx : WorldContext σ) (camera : Camera3D)
    (hctx : w.ctx = some ctx) (hcam : ctx.camera = some camera) (hcalls : w.calls = []) :
    ∃ ds : List RaylibCall, (∀ c ∈ ds, c.isModelDraw = true) ∧
      (ecs_progress J delta_time w).calls =
        [RaylibCall.BeginDrawing, RaylibCall.ClearBackground Color.RAYWHITE,
          RaylibCall.BeginMode3D camera] ++
        (ds ++ [RaylibCall.DrawGrid 10 1, RaylibCall.EndMode3D, RaylibCall.DrawFPS 10 10,
          RaylibCall.EndDrawing]) := by
  have hc := PhysicsSystem_camera J
    { ctx := w.ctx, delta_time := delta_time, rows := physicsRows w.entities }
  rw [hctx] at hc
  cases hp : (PhysicsSystem J { ctx := some ctx, delta_time := delta_time,
                                rows := physicsRows w.entities }).ctx with
  | none => rw [hp] at hc; simp [hcam] at hc
  | some ctx2 =>
    rw [hp] at hc
    simp only [Option.bind, hcam] at hc
    obtain ⟨ds, hds, hall⟩ := cameraRenderRow_foldl_calls
      (cameraRows (storePhysicsRows w.entities
        (PhysicsSystem J { ctx := some ctx, delta_time := delta_time,
                           rows := physicsRows w.entities }).rows))
      ([], [RaylibCall.BeginDrawing, RaylibCall.ClearBackground Color.RAYWHITE,
            RaylibCall.BeginMode3D camera])
    refine ⟨ds, hall, ?_⟩
    have hsched : frameSchedule customPhases registeredSystems =
        [SystemId.LogicUpdateSystem, SystemId.PhysicsSystem, SystemId.RenderBeginSystem,
          SystemId.BeginCameraSystem, SystemId.CameraRenderSystem, SystemId.EndCameraSystem,
          SystemId.RenderSystem, SystemId.RenderEndSystem] := by decide
    simp only [ecs_progress, hsched, List.foldl, runSystem, hctx, hcalls, hp,
      LogicUpdateSystem, RenderBeginSystem, BeginCameraSystem, hc, CameraRenderSystem,
      EndCameraSystem, RenderSystem, RenderEndSystem, List.nil_append, List.cons_append,
      List.append_assoc]
    rw [hds]
    simp

/-- When the context and its camera are present, every draw call that
`CameraRenderSystem` issues in a frame is issued in state `CameraBegun`. -/
theorem CameraRenderSystem_bracketed_when_camera_present {σ : Type} (J : Joltc σ)
    (delta_time : Scalar) (w : World σ) (ctx : WorldContext σ) (camera : Camera3D)
    (hctx : w.ctx = some ctx) (hcam : ctx.camera = some camera) (hcalls : w.calls = []) :
    ∀ st ∈ drawStates RenderState.Idle (ecs_progress J delta_time w).calls,
      st = RenderState.CameraBegun := by
  obtain ⟨ds, hall, h⟩ :=
    ecs_progress_calls_when_camera_present J delta_time w ctx camera hctx hcam hcalls
  rw [h]
  intro st hst
  have hpre : ∀ rest : List RaylibCall,
      drawStates RenderState.Idle
        ([RaylibCall.BeginDrawing, RaylibCall.ClearBackground Color.RAYWHITE,
          RaylibCall.BeginMode3D camera] ++ rest) =
        drawStates RenderState.CameraBegun rest := fun _ => rfl
  rw [hpre, drawStates_append_draws _ _ _ hall] at hst
  simp only [drawStates, RaylibCall.isModelDraw, RenderState.step, Bool.false_eq_true,
    if_false, if_true, List.mem_append, List.mem_cons, List.mem_nil_iff, or_false] at hst
  rcases hst with hst | hst
  · exact (List.mem_replicate.1 hst).2
  · exact hst

/-- The resolver puts the phases of `main` in the order of their chain, also when
they are declared in the reverse order. -/
theorem resolvePhases_main :
    resolvePhases mainPhaseDecls = some [0, 1, 2, 3, 4, 5, 6, 7] ∧
    resolvePhases mainPhaseDecls.reverse = some [0, 1, 2, 3, 4, 5, 6, 7] ∧
    mainPhaseDecls.map (fun d => d.id) = (Phase.EcsPreUpdate :: customPhases).map phaseRank := by
  refine ⟨?_, ?_, ?_⟩ <;> decide

/-- Writing the rows of the physics query back unchanged leaves the entities as
they are. -/
theorem storePhysicsRows_physicsRows (entities : List Entity) :
    storePhysicsRows entities (physicsRows entities) = entities := by
  induction entities with
  | nil => rfl
  | cons e es ih =>
    obtain ⟨name, transform, model, body⟩ := e
    cases transform <;> cases body <;>
      simp only [physicsRows, storePhysicsRows, List.filterMap_cons] <;>
      exact congrArg _ ih

/-- A frame on a world whose context holds no job system, holding the two
entities of `main`: the context and the entities are left as they are. -/
theorem ecs_progress_without_job_system {σ : Type} (J : Joltc σ) (delta_time : Scalar)
    (w : World σ) (e : σ) (bi : JPH_BodyInterface) (camera : Option Camera3D)
    (floorId cubeId : JPH_BodyID)
    (hctx : w.ctx = some
      { physics := some { physicsSystem := some e, bodyInterface := some bi, jobSystem := none },
        camera := camera })
    (hent : w.entities = [floorEntity floorId, cubeEntity cubeId]) :
    (ecs_progress J delta_time w).ctx = w.ctx ∧
      (ecs_progress J delta_time w).entities = w.entities := by
  have hsched : frameSchedule customPhases registeredSystems =
      [SystemId.LogicUpdateSystem, SystemId.PhysicsSystem, SystemId.RenderBeginSystem,
        SystemId.BeginCameraSystem, SystemId.CameraRenderSystem, SystemId.EndCameraSystem,
        SystemId.RenderSystem, SystemId.RenderEndSystem] := by decide
  have hp : ∀ rows : List (Transform3D × PhysicsBody),
      PhysicsSystem J { ctx := w.ctx, delta_time := delta_time, rows := rows } =
        { ctx := w.ctx, delta_time := delta_time, rows := rows } := by
    intro rows
    apply PhysicsSystem_of_guard_false
    rw [hctx]
    rfl
  simp only [ecs_progress, hsched, List.foldl, runSystem, LogicUpdateSystem, hp,
    storePhysicsRows_physicsRows]
  refine ⟨trivial, ?_⟩
  simp [hent, cameraRows, floorEntity, cubeEntity, CameraRenderSystem, cameraRenderRow, storeCameraRows]

/-- A frame on a world whose context holds no job system does not depend on what
`JPH_PhysicsSystem_Update` does, and leaves the context as it is. -/
theorem ecs_progress_congr_without_job_system {σ : Type} (J : Joltc σ)
    (update : σ → Scalar → Nat → JPH_JobSystem → σ) (delta_time : Scalar)
    (w : World σ) (e : σ) (bi : JPH_BodyInterface) (camera : Option Camera3D)
    (hctx : w.ctx = some
      { physics := some { physicsSystem := some e, bodyInterface := some bi, jobSystem := none },
        camera := camera }) :
    ecs_progress { J with JPH_PhysicsSystem_Update := update } delta_time w =
      ecs_progress J delta_time w ∧
    (ecs_progress J delta_time w).ctx = w.ctx := by
  have hsched : frameSchedule customPhases registeredSystems =
      [SystemId.LogicUpdateSystem, SystemId.PhysicsSystem, SystemId.RenderBeginSystem,
        SystemId.BeginCameraSystem, SystemId.CameraRenderSystem, SystemId.EndCameraSystem,
        SystemId.RenderSystem, SystemId.RenderEndSystem] := by decide
  have hp : ∀ (J2 : Joltc σ) (rows : List (Transform3D × PhysicsBody)),
      PhysicsSystem J2 { ctx := w.ctx, delta_time := delta_time, rows := rows } =
        { ctx := w.ctx, delta_time := delta_time, rows := rows } := by
    intro J2 rows
    apply PhysicsSystem_of_guard_false
    rw [hctx]
    rfl
  simp only [ecs_progress, hsched, List.foldl, runSystem, LogicUpdateSystem, hp]
  exact ⟨trivial, trivial⟩

/-- The loop state after one more iteration. -/
theorem mainLoopAfter_succ {σ : Type} (J : Joltc σ) (env : MainEnv σ) (s : σ) (k : Nat) :
    mainLoopAfter J env s (k + 1) = mainLoopBody J env (mainLoopAfter J env s k) k := by
  simp [mainLoopAfter, List.range_succ, List.foldl_append]

/-- The R-key blocks of one more frame. -/
theorem resetsAfter_succ {σ : Type} (J : Joltc σ) (env : MainEnv σ) (s : σ) (k : Nat) :
    resetsAfter J env s (k + 1) =
      if env.IsKeyPressed_R k then
        (resetCube J env.JPH_PhysicsSystem_GetBodyInterface env.cubeId env.sqrt env.rand
          (resetsAfter J env s k).2 (resetsAfter J env s k).1, (resetsAfter J env s k).2 + 7)
      else resetsAfter J env s k := by
  simp [resetsAfter, List.range_succ, List.foldl_append]

/-- When no job system could be created, after any number of iterations of the
loop of `main` the context still holds no job system, its engine state is the one
that the R-key blocks alone produce, and the entities are the ones `main` created. -/
theorem mainLoopAfter_without_job_system {σ : Type} (J : Joltc σ) (env : MainEnv σ) (s : σ)
    (hjob : env.JPH_JobSystemThreadPool_Create = none) (k : Nat) :
    (mainLoopAfter J env s k).world.ctx = some
      { physics := some
          { physicsSystem := some (resetsAfter J env s k).1,
            bodyInterface := some env.JPH_PhysicsSystem_GetBodyInterface,
            jobSystem := none },
        camera := some mainCamera } ∧
    (mainLoopAfter J env s k).world.entities = [floorEntity env.floorId, cubeEntity env.cubeId] ∧
    (mainLoopAfter J env s k).randCalls = (resetsAfter J env s k).2 := by
  induction k with
  | zero => simp [mainLoopAfter, resetsAfter, initialWorld, hjob]
  | succ k ih =>
    obtain ⟨h1, h2, h3⟩ := ih
    obtain ⟨g1, g2⟩ := ecs_progress_without_job_system J (env.delta_time k)
      (mainLoopAfter J env s k).world _ _ _ _ _ h1 h2
    rw [mainLoopAfter_succ, resetsAfter_succ]
    unfold mainLoopBody
    cases hkey : env.IsKeyPressed_R k
    · simp only [Bool.false_eq_true, if_false]
      exact ⟨g1.trans h1, g2.trans h2, h3⟩
    · simp only [if_true]
      refine ⟨?_, ?_, ?_⟩
      · simp only [World.mapEngine, g1, h1, Option.map_some', h3]
      · simp only [World.mapEngine]
        exact g2.trans h2
      · rw [h3]

/-- The world and the count of `rand()` calls after the loop do not depend on
the events recorded before it. -/
theorem mainLoop_world {σ : Type} (J : Joltc σ) (env : MainEnv σ) (s : σ)
    (events : List MainEvent) :
    (mainLoop J env { world := initialWorld env s, randCalls := 0, events := events }).world =
      (mainLoopAfter J env s env.frames).world := by
  have key : ∀ (ks : List Nat) (st st2 : LoopState σ),
      st.world = st2.world → st.randCalls = st2.randCalls →
      (ks.foldl (mainLoopBody J env) st).world = (ks.foldl (mainLoopBody J env) st2).world := by
    intro ks
    induction ks with
    | nil => intro st st2 h _; exact h
    | cons k ks ih =>
      intro st st2 hw hr
      rw [List.foldl_cons, List.foldl_cons]
      apply ih
      · unfold mainLoopBody
        rw [hw, hr]
        split <;> rfl
      · unfold mainLoopBody
        rw [hr]
        split <;> rfl
  exact key _ _ _ rfl rfl

/-- With no job system in the context, the loop of `main` does not depend on what
`JPH_PhysicsSystem_Update` does. -/
theorem mainLoop_congr_without_job_system {σ : Type} (J : Joltc σ)
    (update : σ → Scalar → Nat → JPH_JobSystem → σ) (env : MainEnv σ) :
    ∀ (ks : List Nat) (st : LoopState σ),
      (∃ (e : σ) (bi : JPH_BodyInterface) (camera : Option Camera3D), st.world.ctx = some
        { physics := some
            { physicsSystem := some e, bodyInterface := some bi, jobSystem := none },
          camera := camera }) →
      ks.foldl (mainLoopBody { J with JPH_PhysicsSystem_Update := update } env) st =
        ks.foldl (mainLoopBody J env) st := by
  intro ks
  induction ks with
  | nil => intro st _; rfl
  | cons k ks ih =>
    intro st hst
    obtain ⟨e, bi, camera, hctx⟩ := hst
    obtain ⟨h1, h2⟩ := ecs_progress_congr_without_job_system J update (env.delta_time k)
      st.world e bi camera hctx
    have hbody : mainLoopBody { J with JPH_PhysicsSystem_Update := update } env st k =
        mainLoopBody J env st k := by
      unfold mainLoopBody
      rw [h1]
      rfl
    rw [List.foldl_cons, List.foldl_cons, hbody]
    apply ih
    unfold mainLoopBody
    cases hkey : env.IsKeyPressed_R k
    · exact ⟨e, bi, camera, by simpa using h2.trans hctx⟩
    · refine ⟨resetCube J env.JPH_PhysicsSystem_GetBodyInterface env.cubeId env.sqrt env.rand
        st.randCalls e, bi, camera, ?_⟩
      simp [World.mapEngine, h2, hctx]

/-- C11: when `JPH_Init` succeeded, `JPH_JobSystemThreadPool_Create` returned null
and the physics system was created, `main` enters the frame loop and runs every
frame of it, with no job system in the world context.  After any number of
frames: the context still holds no job system, the call of `PhysicsSystem` in the
next frame returns its iterator as it received it, the engine state is the one
that the R-key blocks alone produce from the initial one (the initial one itself
when R is never pressed), and the entities are the Floor and the Cube as `main`
created them, with their initial position, rotation, scale and identity
matrices.  The whole run is the same whatever `JPH_PhysicsSystem_Update` does. -/
theorem main_without_job_system_never_steps {σ : Type} (J : Joltc σ) (env : MainEnv σ) (s : σ)
    (hinit : env.JPH_Init = true) (hjob : env.JPH_JobSystemThreadPool_Create = none)
    (hs : env.JPH_PhysicsSystem_Create = some s) :
    (∃ r : MainResult σ, main J env = some r ∧ r.status = 0 ∧
      r.events.count MainEvent.ecs_progress = env.frames ∧
      r.world = some (mainLoopAfter J env s env.frames).world) ∧
    (∀ k : Nat,
      (mainLoopAfter J env s k).world.ctx = some
        { physics := some
            { physicsSystem := some (resetsAfter J env s k).1,
              bodyInterface := some env.JPH_PhysicsSystem_GetBodyInterface,
              jobSystem := none },
          camera := some mainCamera } ∧
      PhysicsSystem J
          { ctx := (mainLoopAfter J env s k).world.ctx, delta_time := env.delta_time k,
            rows := physicsRows (mainLoopAfter J env s k).world.entities } =
        { ctx := (mainLoopAfter J env s k).world.ctx, delta_time := env.delta_time k,
          rows := physicsRows (mainLoopAfter J env s k).world.entities } ∧
      (mainLoopAfter J env s k).world.entities =
        [floorEntity env.floorId, cubeEntity env.cubeId] ∧
      (mainLoopAfter J env s k).world.entities.map (fun e => e.transform) =
        [some { position := { x := 0, y := -1, z := 0 },
                rotation := { x := 0, y := 0, z := 0, w := 1 },
                scale := { x := 20, y := 1 / 2, z := 20 },
                localMatrix := MatrixIdentity, worldMatrix := MatrixIdentity },
         some { position := { x := 0, y := 2, z := 0 },
                rotation := { x := 0, y := 0, z := 0, w := 1 },
                scale := { x := 1, y := 1, z := 1 },
                localMatrix := MatrixIdentity, worldMatrix := MatrixIdentity }]) ∧
    (∀ update : σ → Scalar → Nat → JPH_JobSystem → σ,
      main { J with JPH_PhysicsSystem_Update := update } env = main J env) ∧
    ((∀ j : Nat, env.IsKeyPressed_R j = false) → ∀ k : Nat, (resetsAfter J env s k).1 = s) := by
  refine ⟨?_, ?_, ?_, ?_⟩
  · refine ⟨_, by simp only [main, hinit, hjob, hs]; rfl, rfl, ?_, ?_⟩
    · simp [mainLoop_events]
    · simp only [mainLoop_world]
  · intro k
    obtain ⟨h1, h2, _⟩ := mainLoopAfter_without_job_system J env s hjob k
    refine ⟨h1, ?_, h2, ?_⟩
    · apply PhysicsSystem_of_guard_false
      rw [h1]
      rfl
    · rw [h2]
      rfl
  · intro update
    have h := mainLoop_congr_without_job_system J update env (List.range env.frames)
      { world := initialWorld env s, randCalls := 0,
        events := [MainEvent.printf "init jolt physics\n",
          MainEvent.printf "Failed to create job system, proceeding without it\n",
          MainEvent.printf "Gravity: (%.2f, %.2f, %.2f)\n",
          MainEvent.printf "Create floor\n",
          MainEvent.printf "Create cube\n",
          MainEvent.InitWindow,
          MainEvent.printf "Starting main loop\n"] }
      ⟨s, env.JPH_PhysicsSystem_GetBodyInterface, some mainCamera, by simp [initialWorld, hjob]⟩
    simp only [main, hinit, hjob, hs, mainLoop]
    simp only [List.cons_append, List.nil_append, Bool.not_true, Bool.false_eq_true, if_false]
    rw [h]
  · intro hkey k
    induction k with
    | zero => rfl
    | succ k ih => rw [resetsAfter_succ, hkey k]; exact ih

/-- Witness for C11: the run of two frames on the test engine, with no job
system and no key pressed. -/
theorem main_without_job_system_never_steps_witness :
    (main tableJoltc envNoJobSystem).map (fun r => r.world.map (fun w => w.entities)) =
        some (some [floorEntity 1, cubeEntity 2]) ∧
    (main tableJoltc envNoJobSystem).map
        (fun r => r.world.map (fun w => engineOf { ctx := w.ctx, delta_time := 0, rows := [] })) =
      some (some envNoJobSystem.JPH_PhysicsSystem_Create) := by
  obtain ⟨⟨r, hm, _, _, hw⟩, hk, _, hr⟩ :=
    main_without_job_system_never_steps tableJoltc envNoJobSystem _ rfl rfl rfl
  obtain ⟨h1, _, h2, _⟩ := hk envNoJobSystem.frames
  rw [hm]
  simp only [Option.map_some', hw, h2, h1, engineOf, Option.bind_some,
    hr (fun _ => rfl) envNoJobSystem.frames]
  exact ⟨rfl, rfl⟩

/-- The draw states of a trace in two parts. -/
theorem drawStates_append (calls rest : List RaylibCall) :
    ∀ st : RenderState, drawStates st (calls ++ rest) =
      drawStates st calls ++ drawStates (renderStateAfter st calls) rest := by
  induction calls with
  | nil => intro st; rfl
  | cons c calls ih =>
    intro st
    cases c <;> simp [drawStates, renderStateAfter, RaylibCall.isModelDraw, RenderState.step] <;>
      exact ih _

/-- The raylib calls that a frame adds when the context and its camera are
present: the draw calls of `CameraRenderSystem` stand between `BeginMode3D` and
`EndMode3D`, and the camera stays in the context. -/
theorem ecs_progress_frame_calls {σ : Type} (J : Joltc σ)
    (delta_time : Scalar) (w : World σ) (ctx : WorldContext σ) (camera : Camera3D)
    (hctx : w.ctx = some ctx) (hcam : ctx.camera = some camera) :
    ∃ ds : List RaylibCall, (∀ c ∈ ds, c.isModelDraw = true) ∧
      (ecs_progress J delta_time w).calls =
        w.calls ++
          ([RaylibCall.BeginDrawing, RaylibCall.ClearBackground Color.RAYWHITE,
            RaylibCall.BeginMode3D camera] ++
          (ds ++ [RaylibCall.DrawGrid 10 1, RaylibCall.EndMode3D, RaylibCall.DrawFPS 10 10,
            RaylibCall.EndDrawing])) ∧
      (ecs_progress J delta_time w).ctx.bind (fun c => c.camera) = some camera := by
  have hc := PhysicsSystem_camera J
    { ctx := w.ctx, delta_time := delta_time, rows := physicsRows w.entities }
  rw [hctx] at hc
  have hsched : frameSchedule customPhases registeredSystems =
      [SystemId.LogicUpdateSystem, SystemId.PhysicsSystem, SystemId.RenderBeginSystem,
        SystemId.BeginCameraSystem, SystemId.CameraRenderSystem, SystemId.EndCameraSystem,
        SystemId.RenderSystem, SystemId.RenderEndSystem] := by decide
  cases hp : (PhysicsSystem J { ctx := some ctx, delta_time := delta_time,
                                rows := physicsRows w.entities }).ctx with
  | none => rw [hp] at hc; simp [hcam] at hc
  | some ctx2 =>
    rw [hp] at hc
    simp only [Option.bind, hcam] at hc
    obtain ⟨ds, hds, hall⟩ := cameraRenderRow_foldl_calls
      (cameraRows (storePhysicsRows w.entities
        (PhysicsSystem J { ctx := some ctx, delta_time := delta_time,
                           rows := physicsRows w.entities }).rows))
      ([], w.calls ++ [RaylibCall.BeginDrawing, RaylibCall.ClearBackground Color.RAYWHITE,
            RaylibCall.BeginMode3D camera])
    refine ⟨ds, hall, ?_, ?_⟩
    · simp only [ecs_progress, hsched, List.foldl, runSystem, hctx, hp,
        LogicUpdateSystem, RenderBeginSystem, BeginCameraSystem, hc, CameraRenderSystem,
        EndCameraSystem, RenderSystem, RenderEndSystem, List.nil_append, List.cons_append,
        List.append_assoc]
      rw [hds]
      simp
    · simp only [ecs_progress, hsched, List.foldl, runSystem, hctx, hp, Option.bind, hc]

/-- The draw states of the calls of one frame with the camera present, from any
state: every draw call is issued in `CameraBegun`. -/
theorem drawStates_frame (st : RenderState) (camera : Camera3D) (ds : List RaylibCall)
    (hall : ∀ c ∈ ds, c.isModelDraw = true) :
    ∀ x ∈ drawStates st
        ([RaylibCall.BeginDrawing, RaylibCall.ClearBackground Color.RAYWHITE,
          RaylibCall.BeginMode3D camera] ++
        (ds ++ [RaylibCall.DrawGrid 10 1, RaylibCall.EndMode3D, RaylibCall.DrawFPS 10 10,
          RaylibCall.EndDrawing])),
      x = RenderState.CameraBegun := by
  intro x hx
  have hpre : ∀ rest : List RaylibCall,
      drawStates st
        ([RaylibCall.BeginDrawing, RaylibCall.ClearBackground Color.RAYWHITE,
          RaylibCall.BeginMode3D camera] ++ rest) =
        drawStates RenderState.CameraBegun rest := fun _ => rfl
  rw [hpre, drawStates_append_draws _ _ _ hall] at hx
  simp only [drawStates, RaylibCall.isModelDraw, RenderState.step, Bool.false_eq_true,
    if_false, if_true, List.mem_append, List.mem_cons, List.mem_nil_iff, or_false] at hx
  rcases hx with hx | hx
  · exact (List.mem_replicate.1 hx).2
  · exact hx

/-- After any number of iterations of the loop of `main` the camera is in the
context and every draw call made so far was issued in `CameraBegun`. -/
theorem mainLoopAfter_draws {σ : Type} (J : Joltc σ) (env : MainEnv σ) (s : σ) (k : Nat) :
    (mainLoopAfter J env s k).world.ctx.bind (fun c => c.camera) = some mainCamera ∧
    ∀ x ∈ drawStates RenderState.Idle (mainLoopAfter J env s k).world.calls,
      x = RenderState.CameraBegun := by
  induction k with
  | zero =>
    refine ⟨rfl, ?_⟩
    intro x hx
    simp [mainLoopAfter, initialWorld, drawStates] at hx
  | succ k ih =>
    obtain ⟨h1, h2⟩ := ih
    cases hctx : (mainLoopAfter J env s k).world.ctx with
    | none => rw [hctx] at h1; simp at h1
    | some ctx =>
      rw [hctx] at h1
      simp only [Option.bind] at h1
      obtain ⟨ds, hall, hcalls, hcam⟩ := ecs_progress_frame_calls J (env.delta_time k)
        (mainLoopAfter J env s k).world ctx mainCamera hctx h1
      have hdraw : ∀ x ∈ drawStates RenderState.Idle
          (ecs_progress J (env.delta_time k) (mainLoopAfter J env s k).world).calls,
          x = RenderState.CameraBegun := by
        intro x hx
        rw [hcalls, drawStates_append] at hx
        rcases List.mem_append.1 hx with hx | hx
        · exact h2 x hx
        · exact drawStates_frame _ mainCamera ds hall x hx
      rw [mainLoopAfter_succ]
      unfold mainLoopBody
      cases hkey : env.IsKeyPressed_R k
      · exact ⟨hcam, hdraw⟩
      · refine ⟨?_, hdraw⟩
        simp only [if_true, World.mapEngine]
        cases hc2 : (ecs_progress J (env.delta_time k) (mainLoopAfter J env s k).world).ctx with
        | none => rw [hc2] at hcam; simp at hcam
        | some ctx2 =>
          rw [hc2] at hcam
          simpa using hcam

/-- C6, amended: when the world context and its camera are present, the raylib
calls that a frame adds are `BeginDrawing`, `ClearBackground`, `BeginMode3D`, the
draw calls of `CameraRenderSystem`, `EndMode3D`, `DrawFPS`, `EndDrawing`, so that
every draw call is issued in state `CameraBegun`, after `BeginCameraSystem` called
`BeginMode3D` and before `EndCameraSystem` called `EndMode3D`.  `main` installs
the context with its camera before the loop and nothing removes them: in every
run of `main`, after any number of frames, every draw call made so far was issued
in state `CameraBegun`. -/
theorem CameraRenderSystem_draws_inside_camera_block {σ : Type} (J : Joltc σ) :
    (∀ (delta_time : Scalar) (w : World σ) (ctx : WorldContext σ) (camera : Camera3D),
      w.ctx = some ctx → ctx.camera = some camera →
      ∃ ds : List RaylibCall, (∀ c ∈ ds, c.isModelDraw = true) ∧
        (ecs_progress J delta_time w).calls =
          w.calls ++
            ([RaylibCall.BeginDrawing, RaylibCall.ClearBackground Color.RAYWHITE,
              RaylibCall.BeginMode3D camera] ++
            (ds ++ [RaylibCall.DrawGrid 10 1, RaylibCall.EndMode3D, RaylibCall.DrawFPS 10 10,
              RaylibCall.EndDrawing])) ∧
        ∀ st : RenderState, ∀ x ∈ drawStates st
            ([RaylibCall.BeginDrawing, RaylibCall.ClearBackground Color.RAYWHITE,
              RaylibCall.BeginMode3D camera] ++
            (ds ++ [RaylibCall.DrawGrid 10 1, RaylibCall.EndMode3D, RaylibCall.DrawFPS 10 10,
              RaylibCall.EndDrawing])),
          x = RenderState.CameraBegun) ∧
    (∀ (env : MainEnv σ) (s : σ) (k : Nat),
      (mainLoopAfter J env s k).world.ctx.bind (fun c => c.camera) = some mainCamera ∧
      ∀ x ∈ drawStates RenderState.Idle (mainLoopAfter J env s k).world.calls,
        x = RenderState.CameraBegun) ∧
    (∀ (env : MainEnv σ) (r : MainResult σ) (w : World σ),
      main J env = some r → r.world = some w →
      ∀ x ∈ drawStates RenderState.Idle w.calls, x = RenderState.CameraBegun) := by
  refine ⟨?_, ?_, ?_⟩
  · intro delta_time w ctx camera hctx hcam
    obtain ⟨ds, hall, hcalls, _⟩ := ecs_progress_frame_calls J delta_time w ctx camera hctx hcam
    exact ⟨ds, hall, hcalls, fun st => drawStates_frame st camera ds hall⟩
  · intro env s k
    exact mainLoopAfter_draws J env s k
  · intro env r w hm hw
    unfold main at hm
    cases hinit : env.JPH_Init with
    | false =>
      simp only [hinit, Bool.not_false, if_true, Option.some.injEq] at hm
      rw [← hm] at hw
      simp at hw
    | true =>
      simp only [hinit, Bool.not_true, Bool.false_eq_true, if_false] at hm
      cases hs : env.JPH_PhysicsSystem_Create with
      | none => rw [hs] at hm; simp at hm
      | some s =>
        rw [hs] at hm
        simp only [Option.some.injEq] at hm
        rw [← hm] at hw
        simp only [Option.some.injEq, mainLoop_world] at hw
        rw [← hw]
        exact (mainLoopAfter_draws J env s env.frames).2

/-- Witness for C6: the run of two frames on the test engine: six draw calls,
all issued in `CameraBegun`. -/
theorem CameraRenderSystem_draws_inside_camera_block_witness :
    (drawStates RenderState.Idle
      (mainLoopAfter tableJoltc envNoJobSystem engineA 2).world.calls).length = 6 ∧
    (drawStates RenderState.Idle
      (mainLoopAfter tableJoltc envNoJobSystem engineA 2).world.calls).all
        (fun x => decide (x = RenderState.CameraBegun)) = true :=
  ⟨by decide,
    List.all_eq_true.2 (fun x hx => decide_eq_true
      (((CameraRenderSystem_draws_inside_camera_block tableJoltc).2.1
        envNoJobSystem engineA 2).2 x hx))⟩

end RaylibFlecsJoltc
